import Mathlib

/-!
Shallow embedding of the `parser2` lexical scanner (`src/lexer/mod.rs`,
`src/lexer/token.rs`, `src/lexer/error.rs`) and proofs about it.

The Rust `Chars` iterator is modelled as a `List Char`; the scanner state
mirrors the `Lexer` struct field by field.  The `usize`/`u32` position
counters are modelled as `Nat` (their values stay far below any wrap-around
for inputs representable as lists in memory); the `u128`/`i128` numeric
accumulators, whose overflow is reachable with ~40-character literals, are
modelled with explicit reduction modulo `2^128` (release-mode wrapping
semantics).  `u8` byte assembly carries an explicit `% 256` for the `as u8`
cast.  Strings built character by character are modelled as `List Char`.
-/

set_option maxRecDepth 8000

namespace Parser2

/-- The NUL sentinel character the scanner uses for end of input. -/
def nul : Char := '\x00'

/-- `LexerError` from `src/lexer/error.rs`. -/
inductive LexerError where
  | InvalidCharInt (c : Char)
  | InvalidCharUint (c : Char)
  | InvalidCharBuffer (c : Char)
  | InvalidCharIdent (c : Char)
  | InvalidBufferLength (n : Nat)
  | UnknownEscapeChar (c : Char)
  | UnterminatedString
  | IllegalCharString (c : Char)
  | SingleSemiColon
  | UnknownSymbol (c : Char)
deriving Repr, DecidableEq

/-- `Token` from `src/lexer/token.rs`.  `Int` carries `i128` (here `Int`,
accumulated with wrapping), `Uint` carries `u128` (here `Nat`, accumulated
mod `2^128`), `Bytes` carries `Vec<u8>` (here `List Nat` of values < 256). -/
inductive Token where
  | Eof
  | Whitespace
  | Lparen
  | Rparen
  | Lbrace
  | Rbrace
  | Colon
  | Comma
  | Dot
  | Int (n : Int)
  | Uint (n : Nat)
  | AsciiString (s : List Char)
  | Utf8String (s : List Char)
  | Bytes (b : List Nat)
  | Ident (s : List Char)
  | Plus
  | Minus
  | Multiply
  | Divide
  | Less
  | LessEqual
  | Greater
  | GreaterEqual
  | Comment (s : List Char)
  | Error (e : LexerError)
  | Placeholder
deriving Repr, DecidableEq

/-- `Span` from `src/lexer/token.rs` (`u32` fields modelled as `Nat`). -/
structure Span where
  start_line : Nat
  start_column : Nat
  end_line : Nat
  end_column : Nat
deriving Repr, DecidableEq

/-- `PlacedToken` from `src/lexer/token.rs`. -/
structure PlacedToken where
  span : Span
  token : Token
deriving Repr, DecidableEq

/-- The `Lexer` struct (`src/lexer/mod.rs`, lines 9-19). `input` is the
remaining part of the `Chars` iterator; `next` is the one-character
lookahead. -/
structure Lexer where
  input : List Char
  next : Char
  offset : Nat
  line : Nat
  column : Nat
  last_line : Nat
  last_column : Nat
  errors : List PlacedToken
deriving Repr, DecidableEq

/-- Rust `char::is_ascii_whitespace`: space, tab, newline, form feed, CR. -/
def is_ascii_whitespace (c : Char) : Bool :=
  c = ' ' || c = '\t' || c = '\n' || c = '\x0C' || c = '\r'

/-- `is_separator` (`mod.rs` lines 21-26). -/
def is_separator (c : Char) : Bool :=
  c = '(' || c = ')' || c = '{' || c = '}' || c = ',' || c = ':' || c = nul ||
    is_ascii_whitespace c

/-- Rust `char::is_ascii_digit`. -/
def is_ascii_digit (c : Char) : Bool :=
  '0' ≤ c && c ≤ '9'

/-- Rust `char::is_ascii_hexdigit`. -/
def is_ascii_hexdigit (c : Char) : Bool :=
  is_ascii_digit c || ('a' ≤ c && c ≤ 'f') || ('A' ≤ c && c ≤ 'F')

/-- Rust `char::is_ascii_alphabetic`. -/
def is_ascii_alphabetic (c : Char) : Bool :=
  ('a' ≤ c && c ≤ 'z') || ('A' ≤ c && c ≤ 'Z')

/-- Rust `char::is_ascii`. -/
def is_ascii (c : Char) : Bool :=
  c.toNat ≤ 0x7F

/-- Rust `char::to_digit(16).unwrap()` on an ASCII hex digit. -/
def hex_val (c : Char) : Nat :=
  if is_ascii_digit c then c.toNat - '0'.toNat
  else if 'a' ≤ c && c ≤ 'f' then c.toNat - 'a'.toNat + 10
  else c.toNat - 'A'.toNat + 10

/-- `Lexer::read_char` (`mod.rs` lines 44-59): record the pre-move
line/column, bump the line exactly when the consumed lookahead is `'\n'`,
pull the next character (NUL when the iterator is exhausted), and advance
offset and column. -/
def read_char (l : Lexer) : Lexer :=
  let line' := if l.next = '\n' then l.line + 1 else l.line
  let column' := if l.next = '\n' then 0 else l.column
  match l.input with
  | [] =>
      { l with last_line := l.line, last_column := l.column,
               line := line', next := nul,
               offset := l.offset + 1, column := column' + 1 }
  | c :: rest =>
      { l with last_line := l.line, last_column := l.column,
               line := line', next := c, input := rest,
               offset := l.offset + 1, column := column' + 1 }

/-- `Lexer::new` (`mod.rs` lines 29-42). -/
def Lexer.new (input : List Char) : Lexer :=
  read_char { input := input, next := nul, offset := 0, line := 1, column := 0,
              last_line := 0, last_column := 0, errors := [] }

/-- Termination measure: characters still reachable by `read_char` before
the lookahead becomes NUL with an exhausted iterator. -/
def msr (l : Lexer) : Nat :=
  l.input.length + (if l.next = nul then 0 else 1)

theorem read_char_msr_le (l : Lexer) : msr (read_char l) ≤ msr l := by
  unfold msr read_char
  cases h : l.input with
  | nil => simp
  | cons c rest =>
      by_cases hc : c = nul <;> by_cases hn : l.next = nul <;>
        simp [hc, hn] <;> omega

theorem read_char_msr_lt (l : Lexer) (h : l.next ≠ nul) :
    msr (read_char l) < msr l := by
  unfold msr read_char
  cases hi : l.input with
  | nil => simp [h]
  | cons c rest =>
      by_cases hc : c = nul <;> simp [hc, h] <;> omega

theorem nul_not_digit : is_ascii_digit nul = false := by decide

theorem nul_not_hexdigit : is_ascii_hexdigit nul = false := by decide

theorem nul_separator : is_separator nul = true := by decide

/-- `Lexer::skip_whitespace` (`mod.rs` lines 61-69). -/
def skip_whitespace (l : Lexer) : Lexer :=
  if h : l.next ≠ nul ∧
      (l.next = ' ' ∨ l.next = '\t' ∨ l.next = '\r' ∨ l.next = '\n') then
    skip_whitespace (read_char l)
  else l
termination_by msr l
decreasing_by exact read_char_msr_lt l h.1

/-- `Lexer::read_line` (`mod.rs` lines 71-85): collect to `'\n'` or NUL,
skipping `'\r'`. -/
def read_line (l : Lexer) : List Char × Lexer :=
  if h : l.next = '\n' ∨ l.next = nul then ([], l)
  else if l.next = '\r' then read_line (read_char l)
  else
    let r := read_line (read_char l)
    (l.next :: r.1, r.2)
termination_by msr l
decreasing_by
  · exact read_char_msr_lt l (fun hn => h (Or.inr hn))
  · exact read_char_msr_lt l (fun hn => h (Or.inr hn))

/-- The separator-scan inside `Lexer::proceed_through_error`
(`mod.rs` lines 90-92). -/
def skip_to_separator (l : Lexer) : Lexer :=
  if h : is_separator l.next then l else skip_to_separator (read_char l)
termination_by msr l
decreasing_by
  refine read_char_msr_lt l (fun hn => h ?_)
  rw [hn]; exact nul_separator

/-- `Lexer::proceed_through_error` (`mod.rs` lines 87-102): skip to the next
separator, then append a placed error to the side list. -/
def proceed_through_error (l : Lexer) (err : LexerError) : Lexer :=
  let start_line := l.line
  let start_column := l.column
  let s := skip_to_separator l
  { s with errors := s.errors ++
      [{ span := { start_line := start_line, start_column := start_column,
                   end_line := s.last_line, end_column := s.last_column },
         token := Token.Error err }] }

/-- Characters allowed inside an identifier (`mod.rs` line 112). -/
def is_ident_char (c : Char) : Bool :=
  ('a' ≤ c && c ≤ 'z') || ('A' ≤ c && c ≤ 'Z') || ('0' ≤ c && c ≤ '9') ||
    c = '_' || c = '-' || c = '!' || c = '?'

theorem nul_not_ident_char : is_ident_char nul = false := by decide

/-- The loop of `Lexer::read_identifier` (`mod.rs` lines 110-123). -/
def read_ident_loop (l : Lexer) : List Char × Lexer :=
  if h : is_ident_char l.next then
    let r := read_ident_loop (read_char l)
    (l.next :: r.1, r.2)
  else if is_separator l.next then ([], l)
  else ([], proceed_through_error l (LexerError.InvalidCharIdent l.next))
termination_by msr l
decreasing_by
  refine read_char_msr_lt l (fun hn => ?_)
  rw [hn] at h; exact absurd h (by simp [nul_not_ident_char])

/-- `Lexer::read_identifier` (`mod.rs` lines 104-124). -/
def read_identifier (l : Lexer) (first : Option Char) : List Char × Lexer :=
  let r := read_ident_loop l
  (first.toList ++ r.1, r.2)

/-- `2^128`, the modulus of the `u128`/`i128` accumulators. -/
def u128_size : Nat := 2 ^ 128

/-- Wrapping (two's-complement) `i128` arithmetic. -/
def i128_wrap (x : Int) : Int :=
  (x + 2 ^ 127) % 2 ^ 128 - 2 ^ 127

/-- The digit loop of `Lexer::read_unsigned` (`mod.rs` lines 128-132);
`num * 10 + digit` in wrapping `u128` arithmetic. -/
def read_uint_loop (l : Lexer) (num : Nat) : Nat × Lexer :=
  if h : is_ascii_digit l.next then
    read_uint_loop (read_char l) ((num * 10 + (l.next.toNat - '0'.toNat)) % u128_size)
  else (num, l)
termination_by msr l
decreasing_by
  refine read_char_msr_lt l (fun hn => ?_)
  rw [hn] at h; exact absurd h (by simp [nul_not_digit])

/-- `Lexer::read_unsigned` (`mod.rs` lines 126-137). -/
def read_unsigned (l : Lexer) : Nat × Lexer :=
  let r := read_uint_loop l 0
  if is_separator r.2.next then r
  else (r.1, proceed_through_error r.2 (LexerError.InvalidCharUint r.2.next))

/-- The digit loop of `Lexer::read_integer` (`mod.rs` lines 141-145);
`num * 10 + digit` in wrapping `i128` arithmetic. -/
def read_int_loop (l : Lexer) (num : Int) : Int × Lexer :=
  if h : is_ascii_digit l.next then
    read_int_loop (read_char l)
      (i128_wrap (num * 10 + ((l.next.toNat - '0'.toNat : Nat) : Int)))
  else (num, l)
termination_by msr l
decreasing_by
  refine read_char_msr_lt l (fun hn => ?_)
  rw [hn] at h; exact absurd h (by simp [nul_not_digit])

/-- `Lexer::read_integer` (`mod.rs` lines 139-150). -/
def read_integer (l : Lexer) : Int × Lexer :=
  let r := read_int_loop l 0
  if is_separator r.2.next then r
  else (r.1, proceed_through_error r.2 (LexerError.InvalidCharInt r.2.next))

/-- The loop of `Lexer::read_hex` (`mod.rs` lines 156-187): consume hex
digits pairwise; a non-hex first digit ends the buffer (separator required);
a non-hex second digit that is a separator records `InvalidBufferLength`. -/
def read_hex_loop (start_line start_column : Nat) (l : Lexer)
    (bytes : List Nat) : List Nat × Lexer :=
  let l1 := read_char l
  let f := l1.next
  if hf : ¬ is_ascii_hexdigit f then
    (bytes,
      if ¬ is_separator f then proceed_through_error l1 (LexerError.InvalidCharBuffer f)
      else l1)
  else
    let l2 := read_char l1
    let s := l2.next
    if hs : ¬ is_ascii_hexdigit s then
      (bytes,
        if is_separator s then
          { l2 with errors := l2.errors ++
              [{ span := { start_line := start_line, start_column := start_column,
                           end_line := l2.last_line, end_column := l2.last_column },
                 token := Token.Error (LexerError.InvalidBufferLength (bytes.length * 2 + 1)) }] }
        else proceed_through_error l2 (LexerError.InvalidCharBuffer s))
    else
      read_hex_loop start_line start_column l2
        (bytes ++ [(hex_val f * 16 + hex_val s) % 256])
termination_by msr l
decreasing_by
  have hf2 : is_ascii_hexdigit (read_char l).next = true := not_not.mp hf
  have h1 : msr (read_char (read_char l)) < msr (read_char l) := by
    refine read_char_msr_lt (read_char l) (fun hn => ?_)
    rw [hn, nul_not_hexdigit] at hf2; exact Bool.false_ne_true hf2
  exact Nat.lt_of_lt_of_le h1 (read_char_msr_le l)

/-- `Lexer::read_hex` (`mod.rs` lines 152-188). -/
def read_hex (l : Lexer) : List Nat × Lexer :=
  read_hex_loop l.line (l.column - 1) l []

/-- The escaped-character step of `Lexer::read_ascii_string`
(`mod.rs` lines 197-219): the decoded character, plus the state after the
possible `UnknownEscapeChar` report. -/
def ascii_escape (l : Lexer) : Char × Lexer :=
  if l.next = '\\' then ('\\', l)
  else if l.next = '"' then ('"', l)
  else if l.next = 'n' then ('\n', l)
  else if l.next = 't' then ('\t', l)
  else if l.next = 'r' then ('\r', l)
  else if l.next = '0' then (nul, l)
  else
    ('�',
      { l with errors := l.errors ++
          [{ span := { start_line := l.last_line, start_column := l.last_column,
                       end_line := l.line, end_column := l.column },
             token := Token.Error (LexerError.UnknownEscapeChar l.next) }] })

theorem ascii_escape_msr (l : Lexer) : msr (ascii_escape l).2 = msr l := by
  unfold ascii_escape; split <;> try rfl
  split <;> try rfl
  split <;> try rfl
  split <;> try rfl
  split <;> try rfl
  split <;> rfl

theorem ascii_escape_next (l : Lexer) : (ascii_escape l).2.next = l.next := by
  unfold ascii_escape; split <;> try rfl
  split <;> try rfl
  split <;> try rfl
  split <;> try rfl
  split <;> try rfl
  split <;> rfl

/-- The `IllegalCharString` check of `Lexer::read_ascii_string`
(`mod.rs` lines 239-253). -/
def ascii_plain (l : Lexer) : Lexer :=
  if ¬ is_ascii l.next then
    { l with errors := l.errors ++
        [{ span := { start_line := l.line, start_column := l.column,
                     end_line := l.line, end_column := l.column },
           token := Token.Error (LexerError.IllegalCharString l.next) }] }
  else l

theorem ascii_plain_msr (l : Lexer) : msr (ascii_plain l) = msr l := by
  unfold ascii_plain; split <;> rfl

theorem ascii_plain_next (l : Lexer) : (ascii_plain l).next = l.next := by
  unfold ascii_plain; split <;> rfl

/-- The loop of `Lexer::read_ascii_string` (`mod.rs` lines 196-257). -/
def read_ascii_loop (start_line start_column : Nat) (l : Lexer)
    (escaped : Bool) (acc : List Char) : List Char × Lexer :=
  if escaped then
    let p := ascii_escape l
    read_ascii_loop start_line start_column (read_char p.2) false (acc ++ [p.1])
  else if l.next = '"' then (acc, read_char l)
  else if h2 : l.next = '\\' then
    read_ascii_loop start_line start_column (read_char l) true acc
  else if l.next = nul then
    (acc,
      { l with errors := l.errors ++
          [{ span := { start_line := start_line, start_column := start_column,
                       end_line := l.last_line, end_column := l.last_column },
             token := Token.Error LexerError.UnterminatedString }] })
  else
    read_ascii_loop start_line start_column (read_char (ascii_plain l)) false
      (acc ++ [l.next])
termination_by (msr l, if escaped then 1 else 0)
decreasing_by
  · -- escape handling: either a real character is consumed, or (escaped NUL
    -- at end of input) only the escaped flag drops
    rename_i hesc
    by_cases hn : l.next = nul
    · apply Prod.Lex.right'
      · calc msr (read_char (ascii_escape l).2) ≤ msr (ascii_escape l).2 :=
              read_char_msr_le _
          _ = msr l := ascii_escape_msr l
      · simp [hesc]
    · apply Prod.Lex.left
      calc msr (read_char (ascii_escape l).2) < msr (ascii_escape l).2 := by
            refine read_char_msr_lt _ ?_
            rw [ascii_escape_next]; exact hn
        _ = msr l := ascii_escape_msr l
  · apply Prod.Lex.left
    exact read_char_msr_lt l (by simp [h2, nul])
  · apply Prod.Lex.left
    rename_i hq hb hnul
    calc msr (read_char (ascii_plain l)) < msr (ascii_plain l) := by
          refine read_char_msr_lt _ ?_
          rw [ascii_plain_next]; exact hnul
      _ = msr l := ascii_plain_msr l

/-- `Lexer::read_ascii_string` (`mod.rs` lines 190-258): remembers the
position of the opening quote, consumes it, and runs the loop. -/
def read_ascii_string (l : Lexer) : List Char × Lexer :=
  read_ascii_loop l.line l.column (read_char l) false []

/-- The loop of `Lexer::read_utf8_string` (`mod.rs` lines 266-316); like the
ASCII loop but with the literal backslash-u pass-through, no illegal-char
check, and the unterminated-string span ending at the current position. -/
def utf8_escape (l : Lexer) : List Char × Lexer :=
  if l.next = '\\' then (['\\'], l)
  else if l.next = '"' then (['"'], l)
  else if l.next = 'n' then (['\n'], l)
  else if l.next = 't' then (['\t'], l)
  else if l.next = 'r' then (['\r'], l)
  else if l.next = '0' then ([nul], l)
  else if l.next = 'u' then (['\\', 'u'], l)
  else
    (['�'],
      { l with errors := l.errors ++
          [{ span := { start_line := l.last_line, start_column := l.last_column,
                       end_line := l.line, end_column := l.column },
             token := Token.Error (LexerError.UnknownEscapeChar l.next) }] })

theorem utf8_escape_msr (l : Lexer) : msr (utf8_escape l).2 = msr l := by
  unfold utf8_escape; split <;> try rfl
  split <;> try rfl
  split <;> try rfl
  split <;> try rfl
  split <;> try rfl
  split <;> try rfl
  split <;> rfl

theorem utf8_escape_next (l : Lexer) : (utf8_escape l).2.next = l.next := by
  unfold utf8_escape; split <;> try rfl
  split <;> try rfl
  split <;> try rfl
  split <;> try rfl
  split <;> try rfl
  split <;> try rfl
  split <;> rfl

def read_utf8_loop (start_line start_column : Nat) (l : Lexer)
    (escaped : Bool) (acc : List Char) : List Char × Lexer :=
  if escaped then
    let p := utf8_escape l
    read_utf8_loop start_line start_column (read_char p.2) false (acc ++ p.1)
  else if l.next = '"' then (acc, read_char l)
  else if h2 : l.next = '\\' then
    read_utf8_loop start_line start_column (read_char l) true acc
  else if l.next = nul then
    (acc,
      { l with errors := l.errors ++
          [{ span := { start_line := start_line, start_column := start_column,
                       end_line := l.line, end_column := l.column },
             token := Token.Error LexerError.UnterminatedString }] })
  else read_utf8_loop start_line start_column (read_char l) false (acc ++ [l.next])
termination_by (msr l, if escaped then 1 else 0)
decreasing_by
  · rename_i hesc
    by_cases hn : l.next = nul
    · apply Prod.Lex.right'
      · calc msr (read_char (utf8_escape l).2) ≤ msr (utf8_escape l).2 :=
              read_char_msr_le _
          _ = msr l := utf8_escape_msr l
      · simp [hesc]
    · apply Prod.Lex.left
      calc msr (read_char (utf8_escape l).2) < msr (utf8_escape l).2 := by
            refine read_char_msr_lt _ ?_
            rw [utf8_escape_next]; exact hn
        _ = msr l := utf8_escape_msr l
  · apply Prod.Lex.left
    exact read_char_msr_lt l (by simp [h2, nul])
  · apply Prod.Lex.left
    rename_i hq hb hnul
    exact read_char_msr_lt l hnul

/-- `Lexer::read_utf8_string` (`mod.rs` lines 260-317): the span start is
the previous position (the `u` prefix), then the opening quote is consumed. -/
def read_utf8_string (l : Lexer) : List Char × Lexer :=
  read_utf8_loop l.last_line l.last_column (read_char l) false []

/-- `Lexer::read_token` (`mod.rs` lines 319-445): the dispatch.  The triple
carries (token, state, advance-flag); when the flag is still set a final
`read_char` consumes the decisive lookahead. -/
def read_token (l : Lexer) : PlacedToken × Lexer :=
  let start_line := l.line
  let start_column := l.column
  let r : Token × Lexer × Bool :=
    if l.next = nul then (Token.Eof, l, true)
    else if l.next = '(' then (Token.Lparen, l, true)
    else if l.next = ')' then (Token.Rparen, l, true)
    else if l.next = '{' then (Token.Lbrace, l, true)
    else if l.next = '}' then (Token.Rbrace, l, true)
    else if l.next = ':' then (Token.Colon, l, true)
    else if l.next = '.' then (Token.Dot, l, true)
    else if l.next = ',' then (Token.Comma, l, true)
    else if l.next = '+' then (Token.Plus, l, true)
    else if l.next = '-' then (Token.Minus, l, true)
    else if l.next = '*' then (Token.Multiply, l, true)
    else if l.next = '/' then (Token.Divide, l, true)
    else if l.next = '<' then
      let l1 := read_char l
      if l1.next = '=' then (Token.LessEqual, l1, true)
      else (Token.Less, l1, false)
    else if l.next = '>' then
      let l1 := read_char l
      if l1.next = '=' then (Token.GreaterEqual, l1, true)
      else (Token.Greater, l1, false)
    else if l.next = ';' then
      let l1 := read_char l
      let l2 :=
        if l1.next ≠ ';' then
          { l1 with errors := l1.errors ++
              [{ span := { start_line := l1.last_line, start_column := l1.last_column,
                           end_line := l1.last_line, end_column := l1.last_column },
                 token := Token.Error LexerError.SingleSemiColon }] }
        else read_char l1
      let l3 := skip_whitespace l2
      let c := read_line l3
      (Token.Comment c.1, c.2, false)
    else if l.next = 'u' then
      let l1 := read_char l
      if is_ascii_digit l1.next then
        let r := read_unsigned l1
        (Token.Uint r.1, r.2, false)
      else if l1.next = '"' then
        let r := read_utf8_string l1
        (Token.Utf8String r.1, r.2, false)
      else
        let r := read_identifier l1 (some 'u')
        (Token.Ident r.1, r.2, false)
    else if l.next = ' ' ∨ l.next = '\t' ∨ l.next = '\r' ∨ l.next = '\n' then
      (Token.Whitespace, skip_whitespace l, false)
    else if l.next = '"' then
      let r := read_ascii_string l
      (Token.AsciiString r.1, r.2, false)
    else if l.next = '0' then
      let l1 := read_char l
      if l1.next = 'x' then
        let r := read_hex l1
        (Token.Bytes r.1, r.2, false)
      else if is_ascii_digit l1.next then
        let r := read_integer l1
        (Token.Int r.1, r.2, false)
      else if is_separator l1.next then (Token.Int 0, l1, false)
      else (Token.Int 0, proceed_through_error l1 (LexerError.InvalidCharInt l1.next), false)
    else if is_ascii_alphabetic l.next then
      let r := read_identifier l none
      (Token.Ident r.1, r.2, false)
    else if is_ascii_digit l.next then
      let r := read_integer l
      (Token.Int r.1, r.2, false)
    else
      (Token.Placeholder,
        { l with errors := l.errors ++
            [{ span := { start_line := l.line, start_column := l.column,
                         end_line := l.line, end_column := l.column },
               token := Token.Error (LexerError.UnknownSymbol l.next) }] },
        false)
  let lf := if r.2.2 then read_char r.2.1 else r.2.1
  ({ span := { start_line := start_line, start_column := start_column,
               end_line := lf.last_line, end_column := lf.last_column },
     token := r.1 }, lf)

/-- Scanner state after `k` calls to `read_token` on `Lexer.new input`. -/
def lexState (input : List Char) : Nat → Lexer
  | 0 => Lexer.new input
  | k + 1 => (read_token (lexState input k)).2

/-- The `(k+1)`-st token produced on `input`. -/
def lexTok (input : List Char) (k : Nat) : PlacedToken :=
  (read_token (lexState input k)).1

/-! ### Error-list bookkeeping

Every operation only ever appends to the side error list. -/

theorem read_char_errors (l : Lexer) : (read_char l).errors = l.errors := by
  unfold read_char; cases l.input <;> rfl

theorem skip_whitespace_errors (l : Lexer) :
    (skip_whitespace l).errors = l.errors := by
  induction l using skip_whitespace.induct with
  | case1 l h ih => rw [skip_whitespace, dif_pos h, ih, read_char_errors]
  | case2 l h => rw [skip_whitespace, dif_neg h]

theorem read_line_errors (l : Lexer) : (read_line l).2.errors = l.errors := by
  induction l using read_line.induct with
  | case1 l h => rw [read_line, dif_pos h]
  | case2 l h h2 ih =>
      rw [read_line, dif_neg h, if_pos h2]; exact ih.trans (read_char_errors l)
  | case3 l h h2 ih =>
      rw [read_line, dif_neg h, if_neg h2]
      exact ih.trans (read_char_errors l)

theorem skip_to_separator_errors (l : Lexer) :
    (skip_to_separator l).errors = l.errors := by
  induction l using skip_to_separator.induct with
  | case1 l h => rw [skip_to_separator, dif_pos h]
  | case2 l h ih => rw [skip_to_separator, dif_neg h]; exact ih.trans (read_char_errors l)

theorem proceed_through_error_errors (l : Lexer) (err : LexerError) :
    (proceed_through_error l err).errors =
      l.errors ++
        [{ span := { start_line := l.line, start_column := l.column,
                     end_line := (skip_to_separator l).last_line,
                     end_column := (skip_to_separator l).last_column },
           token := Token.Error err }] := by
  unfold proceed_through_error
  simp [skip_to_separator_errors]

theorem proceed_through_error_errs_ext (l : Lexer) (err : LexerError) :
    ∃ es, (proceed_through_error l err).errors = l.errors ++ es :=
  ⟨_, proceed_through_error_errors l err⟩

theorem read_ident_loop_errors (l : Lexer) :
    ∃ es, (read_ident_loop l).2.errors = l.errors ++ es := by
  induction l using read_ident_loop.induct with
  | case1 l h ih =>
      obtain ⟨es, hes⟩ := ih
      rw [read_ident_loop, dif_pos h]
      exact ⟨es, by simpa [read_char_errors] using hes⟩
  | case2 l h h2 => rw [read_ident_loop, dif_neg h, if_pos h2]; exact ⟨[], by simp⟩
  | case3 l h h2 =>
      rw [read_ident_loop, dif_neg h, if_neg h2]
      exact ⟨_, proceed_through_error_errors l _⟩

theorem read_uint_loop_errors (l : Lexer) (num : Nat) :
    (read_uint_loop l num).2.errors = l.errors := by
  induction l, num using read_uint_loop.induct with
  | case1 l num h ih => rw [read_uint_loop, dif_pos h]; exact ih.trans (read_char_errors l)
  | case2 l num h => rw [read_uint_loop, dif_neg h]

theorem read_int_loop_errors (l : Lexer) (num : Int) :
    (read_int_loop l num).2.errors = l.errors := by
  induction l, num using read_int_loop.induct with
  | case1 l num h ih => rw [read_int_loop, dif_pos h]; exact ih.trans (read_char_errors l)
  | case2 l num h => rw [read_int_loop, dif_neg h]

theorem read_unsigned_errors (l : Lexer) :
    ∃ es, (read_unsigned l).2.errors = l.errors ++ es := by
  simp only [read_unsigned]
  split
  · exact ⟨[], by simp [read_uint_loop_errors]⟩
  · exact ⟨_, by rw [proceed_through_error_errors, read_uint_loop_errors]⟩

theorem read_integer_errors (l : Lexer) :
    ∃ es, (read_integer l).2.errors = l.errors ++ es := by
  simp only [read_integer]
  split
  · exact ⟨[], by simp [read_int_loop_errors]⟩
  · exact ⟨_, by rw [proceed_through_error_errors, read_int_loop_errors]⟩

theorem read_hex_loop_errors (a b : Nat) (l : Lexer) (bytes : List Nat) :
    ∃ es, (read_hex_loop a b l bytes).2.errors = l.errors ++ es := by
  induction l, bytes using read_hex_loop.induct a b with
  | case1 l bytes l1 f hf =>
      rw [read_hex_loop]
      simp only [dif_pos hf]
      split
      · obtain ⟨es, h⟩ := proceed_through_error_errs_ext (read_char l)
          (LexerError.InvalidCharBuffer (read_char l).next)
        rw [read_char_errors] at h
        exact ⟨es, h⟩
      · exact ⟨[], by simp [read_char_errors]⟩
  | case2 l bytes l1 f hf l2 s hs =>
      rw [read_hex_loop]
      simp only [dif_neg hf, dif_pos hs]
      split
      · exact ⟨[{ span := { start_line := a, start_column := b, end_line := (read_char (read_char l)).last_line, end_column := (read_char (read_char l)).last_column }, token := Token.Error (LexerError.InvalidBufferLength (bytes.length * 2 + 1)) }], by simp [read_char_errors]⟩
      · obtain ⟨es, h⟩ := proceed_through_error_errs_ext (read_char (read_char l))
          (LexerError.InvalidCharBuffer (read_char (read_char l)).next)
        rw [read_char_errors, read_char_errors] at h
        exact ⟨es, h⟩
  | case3 l bytes l1 f hf l2 s hs ih =>
      obtain ⟨es, hes⟩ := ih
      rw [read_hex_loop]
      simp only [dif_neg hf, dif_neg hs]
      exact ⟨es, by rw [hes, read_char_errors, read_char_errors]⟩

theorem ascii_escape_errors (l : Lexer) :
    ∃ es, (ascii_escape l).2.errors = l.errors ++ es := by
  unfold ascii_escape
  split; · exact ⟨[], by simp⟩
  split; · exact ⟨[], by simp⟩
  split; · exact ⟨[], by simp⟩
  split; · exact ⟨[], by simp⟩
  split; · exact ⟨[], by simp⟩
  split; · exact ⟨[], by simp⟩
  exact ⟨_, rfl⟩

theorem ascii_plain_errors (l : Lexer) :
    ∃ es, (ascii_plain l).errors = l.errors ++ es := by
  unfold ascii_plain
  split
  · exact ⟨_, rfl⟩
  · exact ⟨[], by simp⟩

theorem utf8_escape_errors (l : Lexer) :
    ∃ es, (utf8_escape l).2.errors = l.errors ++ es := by
  unfold utf8_escape
  split; · exact ⟨[], by simp⟩
  split; · exact ⟨[], by simp⟩
  split; · exact ⟨[], by simp⟩
  split; · exact ⟨[], by simp⟩
  split; · exact ⟨[], by simp⟩
  split; · exact ⟨[], by simp⟩
  split; · exact ⟨[], by simp⟩
  exact ⟨_, rfl⟩

theorem read_ascii_loop_errors (a b : Nat) (l : Lexer) (e : Bool) (acc : List Char) :
    ∃ es, (read_ascii_loop a b l e acc).2.errors = l.errors ++ es := by
  induction l, e, acc using read_ascii_loop.induct a b with
  | case1 l acc p ih =>
      obtain ⟨es, hes⟩ := ih
      obtain ⟨es2, hes2⟩ := ascii_escape_errors l
      rw [read_ascii_loop]
      rw [if_pos (rfl : (true : Bool) = true)]
      refine ⟨es2 ++ es, ?_⟩
      rw [hes, read_char_errors]
      show (ascii_escape l).2.errors ++ es = _
      rw [hes2, List.append_assoc]
  | case2 l e acc he h2 => rw [read_ascii_loop]; simp [he, h2, read_char_errors]
  | case3 l e acc he h2 h3 ih =>
      obtain ⟨es, hes⟩ := ih
      rw [read_ascii_loop]
      simp only [if_neg he, if_neg h2, dif_pos h3]
      exact ⟨es, by rw [hes, read_char_errors]⟩
  | case4 l e acc he h2 h3 h4 =>
      rw [read_ascii_loop]
      simp only [if_neg he, if_neg h2, dif_neg h3, if_pos h4]
      exact ⟨_, rfl⟩
  | case5 l e acc he h2 h3 h4 ih =>
      obtain ⟨es, hes⟩ := ih
      obtain ⟨es2, hes2⟩ := ascii_plain_errors l
      rw [read_ascii_loop]
      simp only [if_neg he, if_neg h2, dif_neg h3, if_neg h4]
      refine ⟨es2 ++ es, ?_⟩
      rw [hes, read_char_errors, hes2, List.append_assoc]

theorem read_utf8_loop_errors (a b : Nat) (l : Lexer) (e : Bool) (acc : List Char) :
    ∃ es, (read_utf8_loop a b l e acc).2.errors = l.errors ++ es := by
  induction l, e, acc using read_utf8_loop.induct a b with
  | case1 l acc p ih =>
      obtain ⟨es, hes⟩ := ih
      obtain ⟨es2, hes2⟩ := utf8_escape_errors l
      rw [read_utf8_loop]
      rw [if_pos (rfl : (true : Bool) = true)]
      refine ⟨es2 ++ es, ?_⟩
      rw [hes, read_char_errors]
      show (utf8_escape l).2.errors ++ es = _
      rw [hes2, List.append_assoc]
  | case2 l e acc he h2 => rw [read_utf8_loop]; simp [he, h2, read_char_errors]
  | case3 l e acc he h2 h3 ih =>
      obtain ⟨es, hes⟩ := ih
      rw [read_utf8_loop]
      simp only [if_neg he, if_neg h2, dif_pos h3]
      exact ⟨es, by rw [hes, read_char_errors]⟩
  | case4 l e acc he h2 h3 h4 =>
      rw [read_utf8_loop]
      simp only [if_neg he, if_neg h2, dif_neg h3, if_pos h4]
      exact ⟨_, rfl⟩
  | case5 l e acc he h2 h3 h4 ih =>
      obtain ⟨es, hes⟩ := ih
      rw [read_utf8_loop]
      simp only [if_neg he, if_neg h2, dif_neg h3, if_neg h4]
      exact ⟨es, by rw [hes, read_char_errors]⟩

theorem advance_errors (b : Bool) (s : Lexer) :
    (if b = true then read_char s else s).errors = s.errors := by
  cases b <;> simp [read_char_errors]

theorem read_token_side (l : Lexer) :
    (∃ es, (read_token l).2.errors = l.errors ++ es) ∧
      ∀ e, (read_token l).1.token ≠ Token.Error e := by
  by_cases h1 : l.next = nul
  · exact ⟨⟨[], by simp [read_token, h1, nul, read_char_errors]⟩,
      by simp [read_token, h1, nul]⟩
  by_cases h2 : l.next = '('
  · exact ⟨⟨[], by simp [read_token, h2, nul, read_char_errors]⟩,
      by simp [read_token, h2, nul]⟩
  by_cases h3 : l.next = ')'
  · exact ⟨⟨[], by simp [read_token, h3, nul, read_char_errors]⟩,
      by simp [read_token, h3, nul]⟩
  by_cases h4 : l.next = '{'
  · exact ⟨⟨[], by simp [read_token, h4, nul, read_char_errors]⟩,
      by simp [read_token, h4, nul]⟩
  by_cases h5 : l.next = '}'
  · exact ⟨⟨[], by simp [read_token, h5, nul, read_char_errors]⟩,
      by simp [read_token, h5, nul]⟩
  by_cases h6 : l.next = ':'
  · exact ⟨⟨[], by simp [read_token, h6, nul, read_char_errors]⟩,
      by simp [read_token, h6, nul]⟩
  by_cases h7 : l.next = '.'
  · exact ⟨⟨[], by simp [read_token, h7, nul, read_char_errors]⟩,
      by simp [read_token, h7, nul]⟩
  by_cases h8 : l.next = ','
  · exact ⟨⟨[], by simp [read_token, h8, nul, read_char_errors]⟩,
      by simp [read_token, h8, nul]⟩
  by_cases h9 : l.next = '+'
  · exact ⟨⟨[], by simp [read_token, h9, nul, read_char_errors]⟩,
      by simp [read_token, h9, nul]⟩
  by_cases h10 : l.next = '-'
  · exact ⟨⟨[], by simp [read_token, h10, nul, read_char_errors]⟩,
      by simp [read_token, h10, nul]⟩
  by_cases h11 : l.next = '*'
  · exact ⟨⟨[], by simp [read_token, h11, nul, read_char_errors]⟩,
      by simp [read_token, h11, nul]⟩
  by_cases h12 : l.next = '/'
  · exact ⟨⟨[], by simp [read_token, h12, nul, read_char_errors]⟩,
      by simp [read_token, h12, nul]⟩
  by_cases h13 : l.next = '<'
  · by_cases he : (read_char l).next = '='
    · exact ⟨⟨[], by simp [read_token, h13, he, nul, read_char_errors]⟩,
        by simp [read_token, h13, he, nul]⟩
    · exact ⟨⟨[], by simp [read_token, h13, he, nul, read_char_errors]⟩,
        by simp [read_token, h13, he, nul]⟩
  by_cases h14 : l.next = '>'
  · by_cases he : (read_char l).next = '='
    · exact ⟨⟨[], by simp [read_token, h14, he, nul, read_char_errors]⟩,
        by simp [read_token, h14, he, nul]⟩
    · exact ⟨⟨[], by simp [read_token, h14, he, nul, read_char_errors]⟩,
        by simp [read_token, h14, he, nul]⟩
  by_cases h15 : l.next = ';'
  · by_cases hsemi : (read_char l).next = ';'
    · exact ⟨⟨[], by simp [read_token, h15, hsemi, nul, read_line_errors,
        skip_whitespace_errors, read_char_errors]⟩,
        by simp [read_token, h15, hsemi, nul]⟩
    · refine ⟨⟨[{ span := { start_line := (read_char l).last_line, start_column := (read_char l).last_column, end_line := (read_char l).last_line, end_column := (read_char l).last_column }, token := Token.Error LexerError.SingleSemiColon }], ?_⟩,
        by simp [read_token, h15, hsemi, nul]⟩
      simp [read_token, h15, hsemi, nul, read_line_errors,
        skip_whitespace_errors, read_char_errors]
  by_cases h16 : l.next = 'u'
  · by_cases hd : is_ascii_digit (read_char l).next
    · obtain ⟨es, h⟩ := read_unsigned_errors (read_char l)
      rw [read_char_errors] at h
      exact ⟨⟨es, by simpa [read_token, h16, hd, nul] using h⟩,
        by simp [read_token, h16, hd, nul]⟩
    · by_cases hq : (read_char l).next = '"'
      · obtain ⟨es, h⟩ := read_utf8_loop_errors (read_char l).last_line
          (read_char l).last_column (read_char (read_char l)) false []
        rw [read_char_errors, read_char_errors] at h
        exact ⟨⟨es, by simpa [read_token, read_utf8_string, h16, hd, hq, nul,
          is_ascii_digit] using h⟩,
          by simp [read_token, h16, hd, hq, nul, is_ascii_digit]⟩
      · obtain ⟨es, h⟩ := read_ident_loop_errors (read_char l)
        rw [read_char_errors] at h
        exact ⟨⟨es, by simpa [read_token, read_identifier, h16, hd, hq, nul] using h⟩,
          by simp [read_token, h16, hd, hq, nul]⟩
  by_cases h17 : l.next = ' ' ∨ l.next = '\t' ∨ l.next = '\r' ∨ l.next = '\n'
  · exact ⟨⟨[], by simp [read_token, h1, h2, h3, h4, h5, h6, h7, h8, h9, h10,
      h11, h12, h13, h14, h15, h16, h17, skip_whitespace_errors]⟩,
      by simp [read_token, h1, h2, h3, h4, h5, h6, h7, h8, h9, h10, h11, h12,
        h13, h14, h15, h16, h17]⟩
  by_cases h18 : l.next = '"'
  · obtain ⟨es, h⟩ := read_ascii_loop_errors l.line l.column (read_char l) false []
    rw [read_char_errors] at h
    exact ⟨⟨es, by simpa [read_token, read_ascii_string, h18, nul] using h⟩,
      by simp [read_token, h18, nul]⟩
  by_cases h19 : l.next = '0'
  · by_cases hx : (read_char l).next = 'x'
    · obtain ⟨es, h⟩ := read_hex_loop_errors (read_char l).line
        ((read_char l).column - 1) (read_char l) []
      rw [read_char_errors] at h
      exact ⟨⟨es, by simpa [read_token, read_hex, h19, hx, nul, is_ascii_digit] using h⟩,
        by simp [read_token, h19, hx, nul, is_ascii_digit]⟩
    · by_cases hd : is_ascii_digit (read_char l).next
      · obtain ⟨es, h⟩ := read_integer_errors (read_char l)
        rw [read_char_errors] at h
        exact ⟨⟨es, by simpa [read_token, h19, hx, hd, nul] using h⟩,
          by simp [read_token, h19, hx, hd, nul]⟩
      · by_cases hsep : is_separator (read_char l).next
        · exact ⟨⟨[], by simp [read_token, h19, hx, hd, hsep, nul, read_char_errors]⟩,
            by simp [read_token, h19, hx, hd, hsep, nul]⟩
        · obtain ⟨es, h⟩ := proceed_through_error_errs_ext (read_char l)
            (LexerError.InvalidCharInt (read_char l).next)
          rw [read_char_errors] at h
          exact ⟨⟨es, by simpa [read_token, h19, hx, hd, hsep, nul] using h⟩,
            by simp [read_token, h19, hx, hd, hsep, nul]⟩
  by_cases h20 : is_ascii_alphabetic l.next
  · obtain ⟨es, h⟩ := read_ident_loop_errors l
    exact ⟨⟨es, by simpa [read_token, read_identifier, h1, h2, h3, h4, h5, h6,
        h7, h8, h9, h10, h11, h12, h13, h14, h15, h16, h17, h18, h19, h20] using h⟩,
      by simp [read_token, h1, h2, h3, h4, h5, h6, h7, h8, h9, h10, h11, h12,
        h13, h14, h15, h16, h17, h18, h19, h20]⟩
  by_cases h21 : is_ascii_digit l.next
  · obtain ⟨es, h⟩ := read_integer_errors l
    exact ⟨⟨es, by simpa [read_token, h1, h2, h3, h4, h5, h6, h7, h8, h9, h10,
        h11, h12, h13, h14, h15, h16, h17, h18, h19, h20, h21] using h⟩,
      by simp [read_token, h1, h2, h3, h4, h5, h6, h7, h8, h9, h10, h11, h12,
        h13, h14, h15, h16, h17, h18, h19, h20, h21]⟩
  · refine ⟨⟨[{ span := { start_line := l.line, start_column := l.column, end_line := l.line, end_column := l.column }, token := Token.Error (LexerError.UnknownSymbol l.next) }], ?_⟩,
      by simp [read_token, h1, h2, h3, h4, h5, h6, h7, h8, h9, h10, h11, h12,
        h13, h14, h15, h16, h17, h18, h19, h20, h21]⟩
    simp [read_token, h1, h2, h3, h4, h5, h6, h7, h8, h9, h10, h11, h12, h13,
      h14, h15, h16, h17, h18, h19, h20, h21]

theorem read_token_errors (l : Lexer) :
    ∃ es, (read_token l).2.errors = l.errors ++ es :=
  (read_token_side l).1

theorem read_token_not_error (l : Lexer) (e : LexerError) :
    (read_token l).1.token ≠ Token.Error e :=
  (read_token_side l).2 e

/-! ### C1: the UnknownSymbol branch never advances -/

/-- The scanner state reached on input `"~"` after recording `es`. -/
def tildeState (es : List PlacedToken) : Lexer :=
  { input := [], next := '~', offset := 1, line := 1, column := 1,
    last_line := 1, last_column := 0, errors := es }

/-- The placed error recorded on each call on input `"~"`. -/
def tildeErr : PlacedToken :=
  { span := { start_line := 1, start_column := 1, end_line := 1, end_column := 1 },
    token := Token.Error (LexerError.UnknownSymbol '~') }

theorem tilde_step (es : List PlacedToken) :
    read_token (tildeState es) =
      ({ span := { start_line := 1, start_column := 1, end_line := 1, end_column := 0 },
         token := Token.Placeholder }, tildeState (es ++ [tildeErr])) := by
  simp [read_token, tildeState, tildeErr, nul, is_ascii_alphabetic, is_ascii_digit]

theorem lexState_tilde (k : Nat) :
    lexState ['~'] k = tildeState (List.replicate k tildeErr) := by
  induction k with
  | zero => rfl
  | succ k ih =>
      rw [lexState, ih, tilde_step]
      rw [← List.replicate_succ']

/-- C1: the spec's progress guarantee fails in the code.  On input `"~"`
every call to `read_token` returns `Placeholder` (never `Eof`) and leaves
the cursor (offset, line, column, lookahead, remaining input) completely
unchanged, so the scanner loops forever on this input. -/
theorem c1_unknown_symbol_never_advances (k : Nat) :
    (lexTok ['~'] k).token = Token.Placeholder ∧
    (lexTok ['~'] k).token ≠ Token.Eof ∧
    (lexState ['~'] (k + 1)).offset = (lexState ['~'] k).offset ∧
    (lexState ['~'] (k + 1)).line = (lexState ['~'] k).line ∧
    (lexState ['~'] (k + 1)).column = (lexState ['~'] k).column ∧
    (lexState ['~'] (k + 1)).next = (lexState ['~'] k).next ∧
    (lexState ['~'] (k + 1)).input = (lexState ['~'] k).input := by
  have h1 := lexState_tilde k
  have h2 : lexState ['~'] (k + 1) = (read_token (lexState ['~'] k)).2 := rfl
  refine ⟨?_, ?_, ?_, ?_, ?_, ?_, ?_⟩ <;>
    simp only [lexTok, h2, h1, tilde_step] <;> simp [tildeState]

/-! ### C4: faults go to the side list, main stream never carries `Error` -/

/-- C4 (amended): every lexical fault is appended to the side error list
(`errors`), preserving all previously recorded faults (hence discovery
order), while the token returned in the main stream is never the
error-signaling `Token.Error` variant — it is a placeholder or a recovered
token instead. -/
theorem c4_faults_to_side_list (l : Lexer) :
    (∃ es, (read_token l).2.errors = l.errors ++ es) ∧
      ∀ e, (read_token l).1.token ≠ Token.Error e :=
  read_token_side l

/-- C4 counterexample to the claim as stated: on input `"0a"` the fault is
not surfaced inline in the main stream (the main token is the recovered
`Int 0`, not an error-signaling token); the fault is appended to the side
list instead. -/
theorem c4_inline_emission_false :
    (read_token (Lexer.new ['0', 'a'])).1.token = Token.Int 0 ∧
    (∀ e : LexerError, (read_token (Lexer.new ['0', 'a'])).1.token ≠ Token.Error e) ∧
    (read_token (Lexer.new ['0', 'a'])).2.errors.map PlacedToken.token =
      [Token.Error (LexerError.InvalidCharInt 'a')] := by
  have h : read_token (Lexer.new ['0', 'a']) =
      ({ span := { start_line := 1, start_column := 1, end_line := 1, end_column := 2 },
         token := Token.Int 0 },
       { input := [], next := nul, offset := 3, line := 1, column := 3,
         last_line := 1, last_column := 2,
         errors := [{ span := { start_line := 1, start_column := 2,
                                end_line := 1, end_column := 2 },
                      token := Token.Error (LexerError.InvalidCharInt 'a') }] }) := by
    simp [read_token, Lexer.new, read_char, nul, is_ascii_digit, is_separator,
      is_ascii_whitespace, proceed_through_error, skip_to_separator]
  rw [h]
  refine ⟨rfl, ?_, rfl⟩
  intro e
  simp

/-! ### Numeric literal loops: value and terminator characterisation -/

/-- Mathematical value of a digit string. -/
def natOfDigits (ds : List Char) : Nat :=
  ds.foldl (fun n d => n * 10 + (d.toNat - '0'.toNat)) 0

theorem read_char_next_input (l : Lexer) :
    (read_char l).next :: (read_char l).input =
      (if l.input.isEmpty then [nul] else l.input) := by
  unfold read_char; cases l.input <;> simp

theorem read_uint_loop_val (l : Lexer) (num : Nat) :
    (read_uint_loop l num).1 =
      ((l.next :: l.input).takeWhile is_ascii_digit).foldl
        (fun n d => (n * 10 + (d.toNat - '0'.toNat)) % u128_size) num := by
  induction l, num using read_uint_loop.induct with
  | case1 l num h ih =>
      rw [read_uint_loop, dif_pos h, ih]
      cases hi : l.input with
      | nil => simp [read_char, hi, h, List.takeWhile_cons, nul_not_digit]
      | cons c r => simp [read_char, hi, h, List.takeWhile_cons]
  | case2 l num h =>
      rw [read_uint_loop, dif_neg h]
      simp [List.takeWhile_cons, h]

theorem read_uint_loop_next (l : Lexer) (num : Nat) :
    (read_uint_loop l num).2.next =
      ((l.next :: l.input).dropWhile is_ascii_digit).headD nul := by
  induction l, num using read_uint_loop.induct with
  | case1 l num h ih =>
      rw [read_uint_loop, dif_pos h, ih]
      cases hi : l.input with
      | nil => simp [read_char, hi, h, List.dropWhile_cons, nul_not_digit]
      | cons c r => simp [read_char, hi, h, List.dropWhile_cons]
  | case2 l num h =>
      rw [read_uint_loop, dif_neg h]
      simp [List.dropWhile_cons, h]

theorem read_int_loop_val (l : Lexer) (num : Int) :
    (read_int_loop l num).1 =
      ((l.next :: l.input).takeWhile is_ascii_digit).foldl
        (fun n d => i128_wrap (n * 10 + ((d.toNat - '0'.toNat : Nat) : Int))) num := by
  induction l, num using read_int_loop.induct with
  | case1 l num h ih =>
      rw [read_int_loop, dif_pos h, ih]
      cases hi : l.input with
      | nil => simp [read_char, hi, h, List.takeWhile_cons, nul_not_digit]
      | cons c r => simp [read_char, hi, h, List.takeWhile_cons]
  | case2 l num h =>
      rw [read_int_loop, dif_neg h]
      simp [List.takeWhile_cons, h]

theorem read_int_loop_next (l : Lexer) (num : Int) :
    (read_int_loop l num).2.next =
      ((l.next :: l.input).dropWhile is_ascii_digit).headD nul := by
  induction l, num using read_int_loop.induct with
  | case1 l num h ih =>
      rw [read_int_loop, dif_pos h, ih]
      cases hi : l.input with
      | nil => simp [read_char, hi, h, List.dropWhile_cons, nul_not_digit]
      | cons c r => simp [read_char, hi, h, List.dropWhile_cons]
  | case2 l num h =>
      rw [read_int_loop, dif_neg h]
      simp [List.dropWhile_cons, h]

theorem skip_to_separator_sep (l : Lexer) :
    is_separator (skip_to_separator l).next = true := by
  induction l using skip_to_separator.induct with
  | case1 l h => rw [skip_to_separator, dif_pos h]; exact h
  | case2 l h ih => rw [skip_to_separator, dif_neg h]; exact ih

/-! ### Wrapping arithmetic facts -/

theorem u128_fold_mod (ds : List Char) (num : Nat) :
    ds.foldl (fun n d => (n * 10 + (d.toNat - '0'.toNat)) % u128_size) (num % u128_size) =
      (ds.foldl (fun n d => n * 10 + (d.toNat - '0'.toNat)) num) % u128_size := by
  induction ds generalizing num with
  | nil => simp
  | cons d ds ih =>
      simp only [List.foldl_cons]
      have key : ((num % u128_size) * 10 + (d.toNat - '0'.toNat)) % u128_size =
          (num * 10 + (d.toNat - '0'.toNat)) % u128_size := by
        conv_lhs => rw [Nat.add_mod, Nat.mod_mul_mod, ← Nat.add_mod]
      rw [key, ih]

theorem i128_wrap_congr (x y : Int) (h : x % 2 ^ 128 = y % 2 ^ 128) :
    i128_wrap x = i128_wrap y := by
  unfold i128_wrap
  rw [Int.add_emod, h, ← Int.add_emod]

theorem i128_fold_wrap (ds : List Char) (num : Int) :
    ds.foldl (fun n d => i128_wrap (n * 10 + ((d.toNat - '0'.toNat : Nat) : Int)))
        (i128_wrap num) =
      i128_wrap (ds.foldl (fun n d => n * 10 + ((d.toNat - '0'.toNat : Nat) : Int)) num) := by
  induction ds generalizing num with
  | nil => simp
  | cons d ds ih =>
      simp only [List.foldl_cons]
      have key : i128_wrap (i128_wrap num * 10 + ((d.toNat - '0'.toNat : Nat) : Int)) =
          i128_wrap (num * 10 + ((d.toNat - '0'.toNat : Nat) : Int)) := by
        refine i128_wrap_congr _ _ ?_
        have hw : i128_wrap num % 2 ^ 128 = num % 2 ^ 128 := by
          unfold i128_wrap
          omega
        conv_lhs => rw [Int.add_emod, Int.mul_emod, hw, ← Int.mul_emod, ← Int.add_emod]
      rw [key, ih]

theorem i128_wrap_eq_self (x : Int) :
    i128_wrap x = x ↔ -(2 ^ 127) ≤ x ∧ x < 2 ^ 127 := by
  unfold i128_wrap
  constructor
  · intro h
    have h1 : (0 : Int) ≤ (x + 2 ^ 127) % 2 ^ 128 :=
      Int.emod_nonneg _ (by norm_num)
    have h2 : (x + 2 ^ 127) % 2 ^ 128 < 2 ^ 128 :=
      Int.emod_lt_of_pos _ (by norm_num)
    omega
  · intro h
    have : (x + 2 ^ 127) % 2 ^ 128 = x + 2 ^ 127 :=
      Int.emod_eq_of_lt (by omega) (by omega)
    omega

/-- The maximal leading run of ASCII digits at the cursor (the lookahead
followed by the unread input). -/
def digit_run (l : Lexer) : List Char :=
  (l.next :: l.input).takeWhile is_ascii_digit

/-- The character at which a digit scan stops: the first non-digit, or NUL
when the digits run to the end of the input. -/
def digit_terminator (l : Lexer) : Char :=
  ((l.next :: l.input).dropWhile is_ascii_digit).headD nul

theorem intOfDigits_cast (ds : List Char) (num : Nat) :
    ds.foldl (fun n d => n * 10 + ((d.toNat - '0'.toNat : Nat) : Int)) (num : Int) =
      ((ds.foldl (fun n d => n * 10 + (d.toNat - '0'.toNat)) num : Nat) : Int) := by
  induction ds generalizing num with
  | nil => simp
  | cons d ds ih =>
      simp only [List.foldl_cons]
      rw [show (num : Int) * 10 + ((d.toNat - '0'.toNat : Nat) : Int) =
        ((num * 10 + (d.toNat - '0'.toNat) : Nat) : Int) from by push_cast; ring]
      exact ih _

theorem read_unsigned_val (l : Lexer) :
    (read_unsigned l).1 = natOfDigits (digit_run l) % u128_size := by
  have h1 : (read_unsigned l).1 = (read_uint_loop l 0).1 := by
    simp only [read_unsigned]; split <;> rfl
  rw [h1, read_uint_loop_val]
  have := u128_fold_mod ((l.next :: l.input).takeWhile is_ascii_digit) 0
  simpa [natOfDigits, digit_run] using this

theorem read_integer_val (l : Lexer) :
    (read_integer l).1 = i128_wrap ((natOfDigits (digit_run l) : Nat) : Int) := by
  have h1 : (read_integer l).1 = (read_int_loop l 0).1 := by
    simp only [read_integer]; split <;> rfl
  rw [h1, read_int_loop_val]
  have h0 : (0 : Int) = i128_wrap 0 := by unfold i128_wrap; norm_num
  rw [h0, i128_fold_wrap]
  rw [show ((l.next :: l.input).takeWhile is_ascii_digit).foldl
      (fun n d => n * 10 + ((d.toNat - '0'.toNat : Nat) : Int)) (0 : Int) =
      ((natOfDigits (digit_run l) : Nat) : Int) from by
    have := intOfDigits_cast ((l.next :: l.input).takeWhile is_ascii_digit) 0
    simpa [natOfDigits, digit_run] using this]

theorem read_unsigned_next_sep (l : Lexer)
    (h : is_separator (digit_terminator l) = true) :
    (read_unsigned l).2 = (read_uint_loop l 0).2 ∧
      (read_unsigned l).2.next = digit_terminator l := by
  have hn := read_uint_loop_next l 0
  rw [show ((l.next :: l.input).dropWhile is_ascii_digit).headD nul =
    digit_terminator l from rfl] at hn
  constructor
  · simp only [read_unsigned]
    rw [if_pos (by rw [hn]; exact h)]
  · simp only [read_unsigned]
    rw [if_pos (by rw [hn]; exact h)]
    exact hn

theorem read_unsigned_not_sep (l : Lexer)
    (h : is_separator (digit_terminator l) = false) :
    (read_unsigned l).2 =
      proceed_through_error (read_uint_loop l 0).2
        (LexerError.InvalidCharUint (digit_terminator l)) := by
  have hn := read_uint_loop_next l 0
  rw [show ((l.next :: l.input).dropWhile is_ascii_digit).headD nul =
    digit_terminator l from rfl] at hn
  simp only [read_unsigned]
  rw [if_neg (by rw [hn, h]; simp), hn]

theorem read_integer_next_sep (l : Lexer)
    (h : is_separator (digit_terminator l) = true) :
    (read_integer l).2 = (read_int_loop l 0).2 ∧
      (read_integer l).2.next = digit_terminator l := by
  have hn := read_int_loop_next l 0
  rw [show ((l.next :: l.input).dropWhile is_ascii_digit).headD nul =
    digit_terminator l from rfl] at hn
  constructor
  · simp only [read_integer]
    rw [if_pos (by rw [hn]; exact h)]
  · simp only [read_integer]
    rw [if_pos (by rw [hn]; exact h)]
    exact hn

theorem read_integer_not_sep (l : Lexer)
    (h : is_separator (digit_terminator l) = false) :
    (read_integer l).2 =
      proceed_through_error (read_int_loop l 0).2
        (LexerError.InvalidCharInt (digit_terminator l)) := by
  have hn := read_int_loop_next l 0
  rw [show ((l.next :: l.input).dropWhile is_ascii_digit).headD nul =
    digit_terminator l from rfl] at hn
  simp only [read_integer]
  rw [if_neg (by rw [hn, h]; simp), hn]

/-- C6: `read_unsigned` and `read_integer` greedily consume the maximal run
of ASCII digits (accumulating `num = num*10 + digit` in 128 bits) and stop
at the first non-digit.  When that terminator is a separator no fault is
recorded and the scan rests on it; otherwise `InvalidCharUint`
(resp. `InvalidCharInt`) is recorded, the scanner resynchronises to the
next separator, and the accumulated value is still returned. -/
theorem c6_decimal_literals (l : Lexer) :
    (read_unsigned l).1 = natOfDigits (digit_run l) % u128_size ∧
    (read_integer l).1 = i128_wrap ((natOfDigits (digit_run l) : Nat) : Int) ∧
    (is_separator (digit_terminator l) = true →
      (read_unsigned l).2.errors = l.errors ∧
      (read_integer l).2.errors = l.errors ∧
      (read_unsigned l).2.next = digit_terminator l ∧
      (read_integer l).2.next = digit_terminator l) ∧
    (is_separator (digit_terminator l) = false →
      (∃ sp, (read_unsigned l).2.errors = l.errors ++
        [{ span := sp, token := Token.Error (LexerError.InvalidCharUint (digit_terminator l)) }]) ∧
      (∃ sp, (read_integer l).2.errors = l.errors ++
        [{ span := sp, token := Token.Error (LexerError.InvalidCharInt (digit_terminator l)) }]) ∧
      is_separator (read_unsigned l).2.next = true ∧
      is_separator (read_integer l).2.next = true) := by
  refine ⟨read_unsigned_val l, read_integer_val l, ?_, ?_⟩
  · intro h
    obtain ⟨hu, hun⟩ := read_unsigned_next_sep l h
    obtain ⟨hi, hin⟩ := read_integer_next_sep l h
    exact ⟨by rw [hu, read_uint_loop_errors], by rw [hi, read_int_loop_errors],
      hun, hin⟩
  · intro h
    have hu := read_unsigned_not_sep l h
    have hi := read_integer_not_sep l h
    refine ⟨⟨{ start_line := (read_uint_loop l 0).2.line, start_column := (read_uint_loop l 0).2.column, end_line := (skip_to_separator (read_uint_loop l 0).2).last_line, end_column := (skip_to_separator (read_uint_loop l 0).2).last_column }, ?_⟩, ⟨{ start_line := (read_int_loop l 0).2.line, start_column := (read_int_loop l 0).2.column, end_line := (skip_to_separator (read_int_loop l 0).2).last_line, end_column := (skip_to_separator (read_int_loop l 0).2).last_column }, ?_⟩, ?_, ?_⟩
    · rw [hu, proceed_through_error_errors, read_uint_loop_errors]
    · rw [hi, proceed_through_error_errors, read_int_loop_errors]
    · rw [hu]
      show is_separator (skip_to_separator (read_uint_loop l 0).2).next = true
      exact skip_to_separator_sep _
    · rw [hi]
      show is_separator (skip_to_separator (read_int_loop l 0).2).next = true
      exact skip_to_separator_sep _

/-- Witness for C6 on the concrete state for input `"12*"` (terminator not
a separator) and input `"7)"` (separator terminator). -/
theorem c6_decimal_literals_witness :
    ((read_unsigned (Lexer.new ['1', '2', '*'])).1 = 12 ∧
      (∃ sp, (read_unsigned (Lexer.new ['1', '2', '*'])).2.errors =
        [{ span := sp, token := Token.Error (LexerError.InvalidCharUint '*') }]) ∧
      is_separator (read_unsigned (Lexer.new ['1', '2', '*'])).2.next = true) ∧
    ((read_integer (Lexer.new ['7', ')'])).1 = 7 ∧
      (read_integer (Lexer.new ['7', ')'])).2.errors = [] ∧
      (read_integer (Lexer.new ['7', ')'])).2.next = ')') := by
  have h1 := c6_decimal_literals (Lexer.new ['1', '2', '*'])
  have h2 := c6_decimal_literals (Lexer.new ['7', ')'])
  have e1 : digit_terminator (Lexer.new ['1', '2', '*']) = '*' := by decide
  have e2 : digit_terminator (Lexer.new ['7', ')']) = ')' := by decide
  have h14 := h1.2.2.2 (by rw [e1]; decide)
  have h23 := h2.2.2.1 (by rw [e2]; decide)
  refine ⟨⟨?_, ?_, h14.2.2.1⟩, ?_, ?_, ?_⟩
  · rw [h1.1]; decide
  · obtain ⟨sp, hsp⟩ := h14.1
    rw [e1] at hsp
    exact ⟨sp, by simpa [Lexer.new, read_char] using hsp⟩
  · rw [h2.2.1]; decide
  · rw [h23.2.1]; simp [Lexer.new, read_char]
  · rw [h23.2.2.2, e2]

/-- C10: the 128-bit accumulation is unchecked (wrapping): `read_unsigned`
returns the digits' value reduced mod `2^128`, and that equals the
mathematical value precisely when it is below `2^128`; `read_integer`
returns the two's-complement wrap, equal to the mathematical value
precisely when it is below `2^127`. -/
theorem c10_accumulation_unchecked (l : Lexer) :
    (read_unsigned l).1 = natOfDigits (digit_run l) % 2 ^ 128 ∧
    ((read_unsigned l).1 = natOfDigits (digit_run l) ↔
      natOfDigits (digit_run l) < 2 ^ 128) ∧
    (read_integer l).1 = i128_wrap ((natOfDigits (digit_run l) : Nat) : Int) ∧
    ((read_integer l).1 = ((natOfDigits (digit_run l) : Nat) : Int) ↔
      ((natOfDigits (digit_run l) : Nat) : Int) < 2 ^ 127) := by
  have hu := read_unsigned_val l
  have hi := read_integer_val l
  refine ⟨hu, ?_, hi, ?_⟩
  · rw [hu]
    show natOfDigits (digit_run l) % u128_size = _ ↔ _
    constructor
    · intro h
      rw [← h]
      exact Nat.mod_lt _ (by unfold u128_size; positivity)
    · intro h
      exact Nat.mod_eq_of_lt h
  · rw [hi, i128_wrap_eq_self]
    constructor
    · intro h
      exact h.2
    · intro h
      have h0 := Int.natCast_nonneg (natOfDigits (digit_run l))
      exact ⟨by omega, h⟩

/-! ### C5: odd-length hex buffers -/

theorem read_char_next (l : Lexer) : (read_char l).next = l.input.headD nul := by
  unfold read_char; cases l.input <;> rfl

theorem read_char_input (l : Lexer) : (read_char l).input = l.input.tail := by
  unfold read_char; cases l.input <;> rfl

/-- The flattened character stream of a list of hex-digit pairs. -/
def hexPairs : List (Char × Char) → List Char
  | [] => []
  | (a, b) :: ps => a :: b :: hexPairs ps

/-- The bytes assembled from a list of hex-digit pairs (`hi*16 + lo`). -/
def hexBytes (ps : List (Char × Char)) : List Nat :=
  ps.map (fun p => (hex_val p.1 * 16 + hex_val p.2) % 256)

theorem read_hex_loop_odd (a b : Nat) (ps : List (Char × Char)) (d : Char)
    (tl : List Char) (s : Lexer) (bytes : List Nat)
    (hps : ∀ p ∈ ps, is_ascii_hexdigit p.1 = true ∧ is_ascii_hexdigit p.2 = true)
    (hd : is_ascii_hexdigit d = true)
    (ht1 : is_ascii_hexdigit (tl.headD nul) = false)
    (ht2 : is_separator (tl.headD nul) = true)
    (hin : s.input = hexPairs ps ++ d :: tl) :
    (read_hex_loop a b s bytes).1 = bytes ++ hexBytes ps ∧
    ∃ sp, (read_hex_loop a b s bytes).2.errors = s.errors ++
      [{ span := sp,
         token := Token.Error (LexerError.InvalidBufferLength
           ((bytes.length + ps.length) * 2 + 1)) }] := by
  induction ps generalizing s bytes with
  | nil =>
      simp only [hexPairs, List.nil_append] at hin
      have h1n : (read_char s).next = d := by rw [read_char_next, hin]; rfl
      have h1i : (read_char s).input = tl := by rw [read_char_input, hin]; rfl
      have h2n : (read_char (read_char s)).next = tl.headD nul := by
        rw [read_char_next, h1i]
      rw [read_hex_loop]
      rw [dif_neg (by rw [h1n]; exact not_not_intro hd)]
      rw [dif_pos (by rw [h2n, ht1]; simp)]
      rw [if_pos (by rw [h2n]; exact ht2)]
      refine ⟨by simp [hexBytes], ?_⟩
      exact ⟨{ start_line := a, start_column := b, end_line := (read_char (read_char s)).last_line, end_column := (read_char (read_char s)).last_column }, by simp [read_char_errors]⟩
  | cons p ps ih =>
      obtain ⟨p1, p2⟩ := p
      simp only [hexPairs, List.cons_append] at hin
      have hp1 : is_ascii_hexdigit p1 = true := (hps (p1, p2) (by simp)).1
      have hp2 : is_ascii_hexdigit p2 = true := (hps (p1, p2) (by simp)).2
      have h1n : (read_char s).next = p1 := by rw [read_char_next, hin]; rfl
      have h1i : (read_char s).input = p2 :: (hexPairs ps ++ d :: tl) := by
        rw [read_char_input, hin]; rfl
      have h2n : (read_char (read_char s)).next = p2 := by
        rw [read_char_next, h1i]; rfl
      have h2i : (read_char (read_char s)).input = hexPairs ps ++ d :: tl := by
        rw [read_char_input, h1i]; rfl
      rw [read_hex_loop]
      rw [dif_neg (by rw [h1n]; exact not_not_intro hp1)]
      rw [dif_neg (by rw [h2n]; exact not_not_intro hp2)]
      obtain ⟨hv, sp, hsp⟩ := ih (read_char (read_char s))
        (bytes ++ [(hex_val (read_char s).next * 16 +
          hex_val (read_char (read_char s)).next) % 256])
        (fun q hq => hps q (List.mem_cons_of_mem _ hq)) h2i
      refine ⟨?_, ⟨sp, ?_⟩⟩
      · rw [hv, h1n, h2n]
        simp [hexBytes]
      · rw [hsp, read_char_errors, read_char_errors]
        congr 3
        simp
        omega

/-- C5: a hex buffer consisting of complete hex pairs followed by one valid
hex digit whose successor is a (non-hex) separator: `read_token` on
`0x<pairs><d><sep...>` yields the bytes assembled from the complete pairs
and records exactly the fault `InvalidBufferLength (2*completeBytes + 1)`. -/
theorem c5_invalid_buffer_length (ps : List (Char × Char)) (d : Char)
    (tl : List Char)
    (hps : ∀ p ∈ ps, is_ascii_hexdigit p.1 = true ∧ is_ascii_hexdigit p.2 = true)
    (hd : is_ascii_hexdigit d = true)
    (ht1 : is_ascii_hexdigit (tl.headD nul) = false)
    (ht2 : is_separator (tl.headD nul) = true) :
    (read_token (Lexer.new ('0' :: 'x' :: (hexPairs ps ++ d :: tl)))).1.token =
      Token.Bytes (hexBytes ps) ∧
    (read_token (Lexer.new ('0' :: 'x' :: (hexPairs ps ++ d :: tl)))).2.errors.map
        PlacedToken.token =
      [Token.Error (LexerError.InvalidBufferLength (2 * ps.length + 1))] := by
  set L := Lexer.new ('0' :: 'x' :: (hexPairs ps ++ d :: tl)) with hL
  have hLn : L.next = '0' := by rw [hL]; rfl
  have hLi : L.input = 'x' :: (hexPairs ps ++ d :: tl) := by rw [hL]; rfl
  have h1n : (read_char L).next = 'x' := by rw [read_char_next, hLi]; rfl
  have h1i : (read_char L).input = hexPairs ps ++ d :: tl := by
    rw [read_char_input, hLi]; rfl
  have h1e : (read_char L).errors = [] := by
    rw [read_char_errors]; rw [hL]; rfl
  have htok : (read_token L).1.token = Token.Bytes (read_hex (read_char L)).1 ∧
      (read_token L).2 = (read_hex (read_char L)).2 := by
    constructor <;> simp [read_token, hLn, h1n, nul, is_ascii_digit]
  obtain ⟨hv, sp, hsp⟩ := read_hex_loop_odd (read_char L).line
    ((read_char L).column - 1) ps d tl (read_char L) [] hps hd ht1 ht2 h1i
  refine ⟨?_, ?_⟩
  · rw [htok.1]
    unfold read_hex
    rw [hv]
    simp
  · rw [htok.2]
    unfold read_hex
    rw [hsp, h1e]
    simp [Nat.mul_comm]

/-- Witness for C5 at input `"0xdef"`: one completed byte `0xde` plus
`InvalidBufferLength 3`. -/
theorem c5_invalid_buffer_length_witness :
    (read_token (Lexer.new ('0' :: 'x' :: (hexPairs [('d', 'e')] ++ 'f' :: [])))).1.token =
      Token.Bytes [0xde] ∧
    (read_token (Lexer.new ('0' :: 'x' :: (hexPairs [('d', 'e')] ++ 'f' :: [])))).2.errors.map
        PlacedToken.token =
      [Token.Error (LexerError.InvalidBufferLength 3)] := by
  have h := c5_invalid_buffer_length [('d', 'e')] 'f' []
    (by decide) (by decide) (by decide) (by decide)
  exact ⟨by rw [h.1]; decide, by rw [h.2]; decide⟩

/-! ### C7: dispatch after a leading '0' -/

theorem sep_not_digit (c : Char) (h : is_separator c = true) :
    is_ascii_digit c = false := by
  simp only [is_separator, is_ascii_whitespace, Bool.or_eq_true,
    decide_eq_true_eq, or_assoc] at h
  rcases h with (h | h | h | h | h | h | h | h | h | h | h | h) <;>
    subst h <;> decide

theorem sep_ne_x (c : Char) (h : is_separator c = true) : c ≠ 'x' := by
  simp only [is_separator, is_ascii_whitespace, Bool.or_eq_true,
    decide_eq_true_eq, or_assoc] at h
  rcases h with (h | h | h | h | h | h | h | h | h | h | h | h) <;>
    subst h <;> decide

theorem digit_ne_x (c : Char) (h : is_ascii_digit c = true) : c ≠ 'x' := by
  intro he
  rw [he] at h
  exact absurd h (by decide)

/-- C7: dispatch on an input starting with `'0'`.  If the next character is
`'x'` the token is a hex buffer; if it is a digit the token is a decimal
integer whose value ignores the leading zero; if it is a separator the
token is `Int 0` with no fault; otherwise `InvalidCharInt` is recorded,
recovery proceeds, and the token is still `Int 0`. -/
theorem c7_zero_dispatch :
    (∀ rest : List Char, rest.headD nul = 'x' →
      ∃ bs, (read_token (Lexer.new ('0' :: rest))).1.token = Token.Bytes bs) ∧
    (∀ rest : List Char, is_ascii_digit (rest.headD nul) = true →
      (read_token (Lexer.new ('0' :: rest))).1.token =
        Token.Int (i128_wrap ((natOfDigits (rest.takeWhile is_ascii_digit) : Nat) : Int))) ∧
    (∀ rest : List Char, is_separator (rest.headD nul) = true →
      (read_token (Lexer.new ('0' :: rest))).1.token = Token.Int 0 ∧
      (read_token (Lexer.new ('0' :: rest))).2.errors = []) ∧
    (∀ rest : List Char, rest.headD nul ≠ 'x' →
      is_ascii_digit (rest.headD nul) = false →
      is_separator (rest.headD nul) = false →
      (read_token (Lexer.new ('0' :: rest))).1.token = Token.Int 0 ∧
      (read_token (Lexer.new ('0' :: rest))).2.errors.map PlacedToken.token =
        [Token.Error (LexerError.InvalidCharInt (rest.headD nul))]) := by
  have hLn : ∀ rest : List Char, (Lexer.new ('0' :: rest)).next = '0' :=
    fun rest => rfl
  have hLi : ∀ rest : List Char, (Lexer.new ('0' :: rest)).input = rest :=
    fun rest => rfl
  have h1n : ∀ rest : List Char,
      (read_char (Lexer.new ('0' :: rest))).next = rest.headD nul := by
    intro rest; rw [read_char_next, hLi]
  refine ⟨?_, ?_, ?_, ?_⟩
  · intro rest hc
    refine ⟨(read_hex (read_char (Lexer.new ('0' :: rest)))).1, ?_⟩
    have hx : (read_char (Lexer.new ('0' :: rest))).next = 'x' := by
      rw [h1n]; exact hc
    simp [read_token, hLn, hx, nul, is_ascii_digit]
  · intro rest hd
    have hx : (read_char (Lexer.new ('0' :: rest))).next ≠ 'x' := by
      rw [h1n]; exact digit_ne_x _ hd
    have hd2 : is_ascii_digit (read_char (Lexer.new ('0' :: rest))).next = true := by
      rw [h1n]; exact hd
    have htok : (read_token (Lexer.new ('0' :: rest))).1.token =
        Token.Int (read_integer (read_char (Lexer.new ('0' :: rest)))).1 := by
      simp [read_token, hLn, hx, hd2, nul]
    rw [htok, read_integer_val]
    cases hr : rest with
    | nil => rw [hr] at hd; exact absurd hd (by simp [nul_not_digit])
    | cons c t =>
        have hdr : digit_run (read_char (Lexer.new ('0' :: c :: t))) =
            List.takeWhile is_ascii_digit (c :: t) := by
          simp [digit_run, read_char_next, read_char_input, hLi]
        rw [hdr]
  · intro rest hsep
    have hx : (read_char (Lexer.new ('0' :: rest))).next ≠ 'x' := by
      rw [h1n]; exact sep_ne_x _ hsep
    have hd2 : is_ascii_digit (read_char (Lexer.new ('0' :: rest))).next = false := by
      rw [h1n]; exact sep_not_digit _ hsep
    have hs2 : is_separator (read_char (Lexer.new ('0' :: rest))).next = true := by
      rw [h1n]; exact hsep
    constructor
    · simp [read_token, hLn, hx, hd2, hs2, nul]
    · have he : (read_char (Lexer.new ('0' :: rest))).errors = [] := by
        rw [read_char_errors]; rfl
      simp [read_token, hLn, hx, hd2, hs2, nul, he]
  · intro rest hx0 hd0 hs0
    have hx : (read_char (Lexer.new ('0' :: rest))).next ≠ 'x' := by
      rw [h1n]; exact hx0
    have hd2 : is_ascii_digit (read_char (Lexer.new ('0' :: rest))).next = false := by
      rw [h1n]; exact hd0
    have hs2 : is_separator (read_char (Lexer.new ('0' :: rest))).next = false := by
      rw [h1n]; exact hs0
    have he : (read_char (Lexer.new ('0' :: rest))).errors = [] := by
      rw [read_char_errors]; rfl
    constructor
    · simp [read_token, hLn, hx, hd2, hs2, nul]
    · have hp := proceed_through_error_errors (read_char (Lexer.new ('0' :: rest)))
        (LexerError.InvalidCharInt (read_char (Lexer.new ('0' :: rest))).next)
      rw [he] at hp
      have htok : (read_token (Lexer.new ('0' :: rest))).2 =
          proceed_through_error (read_char (Lexer.new ('0' :: rest)))
            (LexerError.InvalidCharInt (read_char (Lexer.new ('0' :: rest))).next) := by
        simp [read_token, hLn, hx, hd2, hs2, nul]
      rw [htok, hp, h1n]
      simp

/-- Witness for C7: `"0x12"` is a buffer, `"0123"` is `Int 123` (leading
zero permitted), `"0)"` is `Int 0` with no fault, `"0a"` is `Int 0` with
an `InvalidCharInt 'a'` fault. -/
theorem c7_zero_dispatch_witness :
    (∃ bs, (read_token (Lexer.new ('0' :: ['x', '1', '2']))).1.token = Token.Bytes bs) ∧
    (read_token (Lexer.new ('0' :: ['1', '2', '3']))).1.token = Token.Int 123 ∧
    ((read_token (Lexer.new ('0' :: [')']))).1.token = Token.Int 0 ∧
      (read_token (Lexer.new ('0' :: [')']))).2.errors = []) ∧
    ((read_token (Lexer.new ('0' :: ['a']))).1.token = Token.Int 0 ∧
      (read_token (Lexer.new ('0' :: ['a']))).2.errors.map PlacedToken.token =
        [Token.Error (LexerError.InvalidCharInt 'a')]) := by
  have h := c7_zero_dispatch
  refine ⟨h.1 ['x', '1', '2'] (by decide), ?_, h.2.2.1 [')'] (by decide),
    h.2.2.2 ['a'] (by decide) (by decide) (by decide)⟩
  rw [h.2.1 ['1', '2', '3'] (by decide)]
  have hv : natOfDigits (['1', '2', '3'].takeWhile is_ascii_digit) = 123 := by decide
  rw [hv]
  norm_num [i128_wrap]

/-! ### C8: literal backslash-u pass-through in UTF8 strings -/

/-- A character that a UTF8 string loop copies verbatim: not a quote, not a
backslash, not the NUL sentinel. -/
def utf8_plain (c : Char) : Prop := c ≠ '"' ∧ c ≠ '\\' ∧ c ≠ nul

theorem read_utf8_loop_plain (sl sc : Nat) (a : List Char) (d : Char)
    (r : List Char) (s : Lexer) (acc : List Char)
    (ha : ∀ c ∈ a, utf8_plain c)
    (h : s.next :: s.input = a ++ d :: r) :
    ∃ t : Lexer, read_utf8_loop sl sc s false acc =
        read_utf8_loop sl sc t false (acc ++ a) ∧
      t.next = d ∧ t.input = r ∧ t.errors = s.errors := by
  induction a generalizing s acc with
  | nil =>
      refine ⟨s, by simp, ?_, ?_, rfl⟩
      · exact (List.cons_eq_cons.mp h).1
      · exact (List.cons_eq_cons.mp h).2
  | cons c a ih =>
      obtain ⟨hq, hb, hn⟩ := ha c (by simp)
      have hsn : s.next = c := (List.cons_eq_cons.mp h).1
      have hsi : s.input = a ++ d :: r := (List.cons_eq_cons.mp h).2
      have hstep : read_utf8_loop sl sc s false acc =
          read_utf8_loop sl sc (read_char s) false (acc ++ [c]) := by
        rw [read_utf8_loop]
        rw [if_neg (by simp)]
        rw [if_neg (by rw [hsn]; exact hq)]
        rw [dif_neg (by rw [hsn]; exact hb)]
        rw [if_neg (by rw [hsn]; exact hn), hsn]
      have hrc : (read_char s).next :: (read_char s).input = a ++ d :: r := by
        rw [read_char_next, read_char_input, hsi]
        cases a <;> rfl
      obtain ⟨t, ht, htn, hti, hte⟩ := ih (read_char s) (acc ++ [c])
        (fun q hq2 => ha q (List.mem_cons_of_mem _ hq2)) hrc
      exact ⟨t, by rw [hstep, ht]; simp, htn, hti, by rw [hte, read_char_errors]⟩

/-- C8: the `\u` escape inside a UTF8 string literal is passed through
literally.  For a literal `"<a>\u<b>"` (with `a`, `b` free of quotes,
backslashes and NUL), the returned text is exactly `a ++ '\\' :: 'u' :: b`
— the backslash and the `u` appear verbatim at that position, no Unicode
code point is decoded, and no fault is recorded. -/
theorem c8_utf8_u_escape_literal (a b rest : List Char) (s : Lexer)
    (ha : ∀ c ∈ a, utf8_plain c) (hb : ∀ c ∈ b, utf8_plain c)
    (hin : s.input = a ++ '\\' :: 'u' :: (b ++ '"' :: rest)) :
    (read_utf8_string s).1 = a ++ '\\' :: 'u' :: b ∧
    (read_utf8_string s).2.errors = s.errors := by
  unfold read_utf8_string
  have h0 : (read_char s).next :: (read_char s).input =
      a ++ '\\' :: 'u' :: (b ++ '"' :: rest) := by
    rw [read_char_next, read_char_input, hin]
    cases a <;> rfl
  obtain ⟨t, ht, htn, hti, hte⟩ := read_utf8_loop_plain s.last_line s.last_column
    a '\\' ('u' :: (b ++ '"' :: rest)) (read_char s) [] ha h0
  rw [ht]
  have hstep1 : read_utf8_loop s.last_line s.last_column t false ([] ++ a) =
      read_utf8_loop s.last_line s.last_column (read_char t) true ([] ++ a) := by
    rw [read_utf8_loop]
    rw [if_neg (by simp)]
    rw [if_neg (by rw [htn]; decide)]
    rw [dif_pos htn]
  have h1n : (read_char t).next = 'u' := by rw [read_char_next, hti]; rfl
  have h1i : (read_char t).input = b ++ '"' :: rest := by
    rw [read_char_input, hti]; rfl
  have hstep2 : read_utf8_loop s.last_line s.last_column (read_char t) true ([] ++ a) =
      read_utf8_loop s.last_line s.last_column (read_char (read_char t)) false
        (([] ++ a) ++ ['\\', 'u']) := by
    rw [read_utf8_loop]
    rw [if_pos rfl]
    have hesc : utf8_escape (read_char t) = (['\\', 'u'], read_char t) := by
      unfold utf8_escape
      rw [if_neg (by rw [h1n]; decide), if_neg (by rw [h1n]; decide),
        if_neg (by rw [h1n]; decide), if_neg (by rw [h1n]; decide),
        if_neg (by rw [h1n]; decide), if_neg (by rw [h1n]; decide),
        if_pos h1n]
    rw [hesc]
  have h2 : (read_char (read_char t)).next :: (read_char (read_char t)).input =
      b ++ '"' :: rest := by
    have hA : (read_char (read_char t)).next = (b ++ '"' :: rest).headD nul := by
      rw [read_char_next, h1i]
    have hB : (read_char (read_char t)).input = (b ++ '"' :: rest).tail := by
      rw [read_char_input, h1i]
    rw [hA, hB]
    cases b <;> rfl
  obtain ⟨t2, ht2, ht2n, ht2i, ht2e⟩ := read_utf8_loop_plain s.last_line
    s.last_column b '"' rest (read_char (read_char t)) (([] ++ a) ++ ['\\', 'u']) hb h2
  have hstep3 : read_utf8_loop s.last_line s.last_column t2 false
      ((([] ++ a) ++ ['\\', 'u']) ++ b) =
      (((([] ++ a) ++ ['\\', 'u']) ++ b), read_char t2) := by
    rw [read_utf8_loop]
    rw [if_neg (by simp)]
    rw [if_pos ht2n]
  rw [hstep1, hstep2, ht2, hstep3]
  constructor
  · simp
  · rw [read_char_errors, ht2e, read_char_errors, read_char_errors, hte,
      read_char_errors]

/-- Witness for C8 on the literal `"x\uy"`. -/
theorem c8_utf8_u_escape_literal_witness :
    (read_utf8_string (Lexer.new ('"' :: 'x' :: '\\' :: 'u' :: 'y' :: '"' :: []))).1 =
      ['x', '\\', 'u', 'y'] ∧
    (read_utf8_string (Lexer.new ('"' :: 'x' :: '\\' :: 'u' :: 'y' :: '"' :: []))).2.errors =
      [] := by
  have h := c8_utf8_u_escape_literal ['x'] ['y'] []
    (Lexer.new ('"' :: 'x' :: '\\' :: 'u' :: 'y' :: '"' :: []))
    (by intro c hc; simp at hc; subst hc; exact ⟨by decide, by decide, by decide⟩)
    (by intro c hc; simp at hc; subst hc; exact ⟨by decide, by decide, by decide⟩)
    rfl
  exact ⟨h.1, h.2⟩

/-! ### C9: semicolon comments -/

/-- The four whitespace characters `skip_whitespace` consumes. -/
def ws4 (c : Char) : Bool :=
  if c = ' ' then true else if c = '\t' then true
  else if c = '\r' then true else if c = '\n' then true else false

/-- A character `read_line` does not stop at (neither newline nor NUL). -/
def line_char (c : Char) : Bool :=
  if c = '\n' then false else if c = nul then false else true

/-- `read_line` strips carriage returns. -/
def not_cr (c : Char) : Bool :=
  if c = '\r' then false else true

theorem ws4_nul : ws4 nul = false := by decide

theorem line_char_nul : line_char nul = false := by decide

theorem ws4_false (c : Char)
    (h : ¬(c ≠ nul ∧ (c = ' ' ∨ c = '\t' ∨ c = '\r' ∨ c = '\n'))) :
    ws4 c = false := by
  by_cases hn : c = nul
  · rw [hn]; exact ws4_nul
  · unfold ws4
    split
    · exact absurd ⟨hn, Or.inl (by assumption)⟩ h
    split
    · exact absurd ⟨hn, Or.inr (Or.inl (by assumption))⟩ h
    split
    · exact absurd ⟨hn, Or.inr (Or.inr (Or.inl (by assumption)))⟩ h
    split
    · exact absurd ⟨hn, Or.inr (Or.inr (Or.inr (by assumption)))⟩ h
    rfl

theorem skip_whitespace_next (l : Lexer) :
    (skip_whitespace l).next = ((l.next :: l.input).dropWhile ws4).headD nul := by
  induction l using skip_whitespace.induct with
  | case1 l h ih =>
      rw [skip_whitespace, dif_pos h, ih]
      have hw : ws4 l.next = true := by
        rcases h.2 with h2 | h2 | h2 | h2 <;> rw [h2] <;> rfl
      cases hi : l.input with
      | nil => simp [read_char, hi, List.dropWhile_cons, hw, ws4_nul]
      | cons c r => simp [read_char, hi, List.dropWhile_cons, hw]
  | case2 l h =>
      rw [skip_whitespace, dif_neg h]
      simp [List.dropWhile_cons, ws4_false l.next h]

theorem skip_whitespace_input (l : Lexer) :
    (skip_whitespace l).input = ((l.next :: l.input).dropWhile ws4).tail := by
  induction l using skip_whitespace.induct with
  | case1 l h ih =>
      rw [skip_whitespace, dif_pos h, ih]
      have hw : ws4 l.next = true := by
        rcases h.2 with h2 | h2 | h2 | h2 <;> rw [h2] <;> rfl
      cases hi : l.input with
      | nil => simp [read_char, hi, List.dropWhile_cons, hw, ws4_nul]
      | cons c r => simp [read_char, hi, List.dropWhile_cons, hw]
  | case2 l h =>
      rw [skip_whitespace, dif_neg h]
      simp [List.dropWhile_cons, ws4_false l.next h]

theorem read_line_val (l : Lexer) :
    (read_line l).1 =
      (((l.next :: l.input).takeWhile line_char).filter not_cr) := by
  induction l using read_line.induct with
  | case1 l h =>
      rw [read_line, dif_pos h]
      have hl : line_char l.next = false := by
        rcases h with h | h <;> rw [h] <;> rfl
      simp [List.takeWhile_cons, hl]
  | case2 l h h2 ih =>
      rw [read_line, dif_neg h, if_pos h2, ih]
      have hl : line_char l.next = true := by rw [h2]; rfl
      have hcr : not_cr l.next = false := by rw [h2]; rfl
      cases hi : l.input with
      | nil =>
          simp [read_char, hi, List.takeWhile_cons, hl, hcr, line_char_nul]
      | cons c r =>
          simp [read_char, hi, List.takeWhile_cons, hl, hcr]
  | case3 l h h2 ih =>
      rw [read_line, dif_neg h, if_neg h2]
      have hl : line_char l.next = true := by
        unfold line_char
        rw [if_neg (fun hc => h (Or.inl hc)), if_neg (fun hc => h (Or.inr hc))]
      have hcr : not_cr l.next = true := by
        unfold not_cr
        rw [if_neg h2]
      show l.next :: (read_line (read_char l)).1 = _
      rw [ih]
      cases hi : l.input with
      | nil =>
          simp [read_char, hi, List.takeWhile_cons, hl, hcr, line_char_nul]
      | cons c r =>
          simp [read_char, hi, List.takeWhile_cons, hl, hcr]

theorem comment_body_eq (xs : List Char) :
    ((((xs.dropWhile ws4).headD nul :: (xs.dropWhile ws4).tail).takeWhile
        line_char).filter not_cr) =
      (((xs.dropWhile ws4).takeWhile line_char).filter not_cr) := by
  cases h : xs.dropWhile ws4 with
  | nil => simp [line_char_nul, List.takeWhile_cons]
  | cons c t => rfl

theorem comment_body_headD (rest : List Char) :
    ((((rest.headD nul :: rest.tail).dropWhile ws4).takeWhile line_char).filter
        not_cr) =
      (((rest.dropWhile ws4).takeWhile line_char).filter not_cr) := by
  cases rest with
  | nil => simp [ws4_nul, line_char_nul, List.dropWhile_cons, List.takeWhile_cons]
  | cons c t => rfl

/-- C9: a `';'` not followed by a second `';'` records a `SingleSemiColon`
fault but still produces a `Comment` token whose body skips leading
whitespace, runs to the next newline or end of input, and strips `'\r'`;
with a second `';'` the same `Comment` is produced and no fault is
recorded. -/
theorem c9_semicolon_comment :
    (∀ rest : List Char, rest.headD nul ≠ ';' →
      (read_token (Lexer.new (';' :: rest))).1.token =
        Token.Comment (((rest.dropWhile ws4).takeWhile line_char).filter not_cr) ∧
      (read_token (Lexer.new (';' :: rest))).2.errors.map PlacedToken.token =
        [Token.Error LexerError.SingleSemiColon]) ∧
    (∀ rest : List Char,
      (read_token (Lexer.new (';' :: ';' :: rest))).1.token =
        Token.Comment (((rest.dropWhile ws4).takeWhile line_char).filter not_cr) ∧
      (read_token (Lexer.new (';' :: ';' :: rest))).2.errors = []) := by
  constructor
  · intro rest hne
    have hLn : (Lexer.new (';' :: rest)).next = ';' := rfl
    have h1n : (read_char (Lexer.new (';' :: rest))).next = rest.headD nul := by
      rw [read_char_next]; rfl
    have h1i : (read_char (Lexer.new (';' :: rest))).input = rest.tail := by
      rw [read_char_input]; rfl
    have h1e : (read_char (Lexer.new (';' :: rest))).errors = [] := by
      rw [read_char_errors]; rfl
    have hcond : (read_char (Lexer.new (';' :: rest))).next ≠ ';' := by
      rw [h1n]; exact hne
    constructor
    · have htok : (read_token (Lexer.new (';' :: rest))).1.token =
          Token.Comment (read_line (skip_whitespace
            { read_char (Lexer.new (';' :: rest)) with
              errors := (read_char (Lexer.new (';' :: rest))).errors ++
                [{ span := { start_line := (read_char (Lexer.new (';' :: rest))).last_line,
                             start_column := (read_char (Lexer.new (';' :: rest))).last_column,
                             end_line := (read_char (Lexer.new (';' :: rest))).last_line,
                             end_column := (read_char (Lexer.new (';' :: rest))).last_column },
                   token := Token.Error LexerError.SingleSemiColon }] })).1 := by
        simp [read_token, hLn, hcond, nul]
      rw [htok, read_line_val, skip_whitespace_next, skip_whitespace_input]
      show Token.Comment _ = Token.Comment _
      congr 1
      rw [show ({ read_char (Lexer.new (';' :: rest)) with
          errors := _ } : Lexer).next = rest.headD nul from h1n]
      rw [show ({ read_char (Lexer.new (';' :: rest)) with
          errors := _ } : Lexer).input = rest.tail from h1i]
      rw [comment_body_eq, comment_body_headD]
    · have htok : (read_token (Lexer.new (';' :: rest))).2 =
          (read_line (skip_whitespace
            { read_char (Lexer.new (';' :: rest)) with
              errors := (read_char (Lexer.new (';' :: rest))).errors ++
                [{ span := { start_line := (read_char (Lexer.new (';' :: rest))).last_line,
                             start_column := (read_char (Lexer.new (';' :: rest))).last_column,
                             end_line := (read_char (Lexer.new (';' :: rest))).last_line,
                             end_column := (read_char (Lexer.new (';' :: rest))).last_column },
                   token := Token.Error LexerError.SingleSemiColon }] })).2 := by
        simp [read_token, hLn, hcond, nul]
      rw [htok, read_line_errors, skip_whitespace_errors]
      simp [h1e]
  · intro rest
    have hLn : (Lexer.new (';' :: ';' :: rest)).next = ';' := rfl
    have h1n : (read_char (Lexer.new (';' :: ';' :: rest))).next = ';' := by
      rw [read_char_next]; rfl
    have h1i : (read_char (Lexer.new (';' :: ';' :: rest))).input = rest := by
      rw [read_char_input]; rfl
    have h2n : (read_char (read_char (Lexer.new (';' :: ';' :: rest)))).next =
        rest.headD nul := by
      rw [read_char_next, h1i]
    have h2i : (read_char (read_char (Lexer.new (';' :: ';' :: rest)))).input =
        rest.tail := by
      rw [read_char_input, h1i]
    have h2e : (read_char (read_char (Lexer.new (';' :: ';' :: rest)))).errors =
        [] := by
      rw [read_char_errors, read_char_errors]; rfl
    constructor
    · have htok : (read_token (Lexer.new (';' :: ';' :: rest))).1.token =
          Token.Comment (read_line (skip_whitespace
            (read_char (read_char (Lexer.new (';' :: ';' :: rest)))))).1 := by
        simp [read_token, hLn, h1n, nul]
      rw [htok, read_line_val, skip_whitespace_next, skip_whitespace_input,
        h2n, h2i, comment_body_eq, comment_body_headD]
    · have htok : (read_token (Lexer.new (';' :: ';' :: rest))).2 =
          (read_line (skip_whitespace
            (read_char (read_char (Lexer.new (';' :: ';' :: rest)))))).2 := by
        simp [read_token, hLn, h1n, nul]
      rw [htok, read_line_errors, skip_whitespace_errors, h2e]

/-- Witness for C9: `"; a"` yields `Comment "a"` plus `SingleSemiColon`;
`";; hi\r\nx"` yields `Comment "hi"` with no fault. -/
theorem c9_semicolon_comment_witness :
    ((read_token (Lexer.new (';' :: [' ', 'a']))).1.token = Token.Comment ['a'] ∧
      (read_token (Lexer.new (';' :: [' ', 'a']))).2.errors.map PlacedToken.token =
        [Token.Error LexerError.SingleSemiColon]) ∧
    ((read_token (Lexer.new (';' :: ';' :: [' ', 'h', 'i', '\r', '\n', 'x']))).1.token =
        Token.Comment ['h', 'i'] ∧
      (read_token (Lexer.new (';' :: ';' :: [' ', 'h', 'i', '\r', '\n', 'x']))).2.errors =
        []) := by
  have h1 := c9_semicolon_comment.1 [' ', 'a'] (by decide)
  have h2 := c9_semicolon_comment.2 [' ', 'h', 'i', '\r', '\n', 'x']
  exact ⟨⟨by rw [h1.1]; decide, h1.2⟩, ⟨by rw [h2.1]; decide, h2.2⟩⟩

/-! ### NUL-free inputs: the lookahead is NUL only at true end of input -/

/-- Invariant for scanners running on NUL-free text: the unread input
contains no NUL, and a NUL lookahead means the iterator is exhausted. -/
def NF (s : Lexer) : Prop :=
  nul ∉ s.input ∧ (s.next = nul → s.input = [])

theorem NF_read_char (s : Lexer) (h : NF s) : NF (read_char s) := by
  obtain ⟨h1, h2⟩ := h
  unfold read_char
  cases hi : s.input with
  | nil => exact ⟨by simp, fun _ => rfl⟩
  | cons c r =>
      rw [hi] at h1
      refine ⟨fun hm => h1 (List.mem_cons_of_mem _ hm), fun hn => ?_⟩
      exact absurd (hn ▸ List.mem_cons_self c r : nul ∈ c :: r) h1

theorem NF_errors (s : Lexer) (e : List PlacedToken) (h : NF s) :
    NF { s with errors := e } := h

theorem NF_skip_whitespace (l : Lexer) (h : NF l) : NF (skip_whitespace l) := by
  induction l using skip_whitespace.induct with
  | case1 l hc ih =>
      rw [skip_whitespace, dif_pos hc]
      exact ih (NF_read_char l h)
  | case2 l hc => rw [skip_whitespace, dif_neg hc]; exact h

theorem NF_read_line (l : Lexer) (h : NF l) : NF (read_line l).2 := by
  induction l using read_line.induct with
  | case1 l hc => rw [read_line, dif_pos hc]; exact h
  | case2 l hc hc2 ih =>
      rw [read_line, dif_neg hc, if_pos hc2]
      exact ih (NF_read_char l h)
  | case3 l hc hc2 ih =>
      rw [read_line, dif_neg hc, if_neg hc2]
      exact ih (NF_read_char l h)

theorem NF_skip_to_separator (l : Lexer) (h : NF l) :
    NF (skip_to_separator l) := by
  induction l using skip_to_separator.induct with
  | case1 l hc => rw [skip_to_separator, dif_pos hc]; exact h
  | case2 l hc ih =>
      rw [skip_to_separator, dif_neg hc]
      exact ih (NF_read_char l h)

theorem NF_proceed_through_error (l : Lexer) (err : LexerError) (h : NF l) :
    NF (proceed_through_error l err) :=
  NF_skip_to_separator l h

theorem NF_read_ident_loop (l : Lexer) (h : NF l) : NF (read_ident_loop l).2 := by
  induction l using read_ident_loop.induct with
  | case1 l hc ih =>
      rw [read_ident_loop, dif_pos hc]
      exact ih (NF_read_char l h)
  | case2 l hc hc2 => rw [read_ident_loop, dif_neg hc, if_pos hc2]; exact h
  | case3 l hc hc2 =>
      rw [read_ident_loop, dif_neg hc, if_neg hc2]
      exact NF_proceed_through_error l _ h

theorem NF_read_uint_loop (l : Lexer) (num : Nat) (h : NF l) :
    NF (read_uint_loop l num).2 := by
  induction l, num using read_uint_loop.induct with
  | case1 l num hc ih =>
      rw [read_uint_loop, dif_pos hc]
      exact ih (NF_read_char l h)
  | case2 l num hc => rw [read_uint_loop, dif_neg hc]; exact h

theorem NF_read_int_loop (l : Lexer) (num : Int) (h : NF l) :
    NF (read_int_loop l num).2 := by
  induction l, num using read_int_loop.induct with
  | case1 l num hc ih =>
      rw [read_int_loop, dif_pos hc]
      exact ih (NF_read_char l h)
  | case2 l num hc => rw [read_int_loop, dif_neg hc]; exact h

theorem NF_read_unsigned (l : Lexer) (h : NF l) : NF (read_unsigned l).2 := by
  simp only [read_unsigned]
  split
  · exact NF_read_uint_loop l 0 h
  · exact NF_proceed_through_error _ _ (NF_read_uint_loop l 0 h)

theorem NF_read_integer (l : Lexer) (h : NF l) : NF (read_integer l).2 := by
  simp only [read_integer]
  split
  · exact NF_read_int_loop l 0 h
  · exact NF_proceed_through_error _ _ (NF_read_int_loop l 0 h)

theorem NF_read_hex_loop (a b : Nat) (l : Lexer) (bytes : List Nat) (h : NF l) :
    NF (read_hex_loop a b l bytes).2 := by
  induction l, bytes using read_hex_loop.induct a b with
  | case1 l bytes l1 f hf =>
      rw [read_hex_loop]
      simp only [dif_pos hf]
      split
      · exact NF_proceed_through_error _ _ (NF_read_char l h)
      · exact NF_read_char l h
  | case2 l bytes l1 f hf l2 s hs =>
      rw [read_hex_loop]
      simp only [dif_neg hf, dif_pos hs]
      split
      · exact NF_errors _ _ (NF_read_char _ (NF_read_char l h))
      · exact NF_proceed_through_error _ _ (NF_read_char _ (NF_read_char l h))
  | case3 l bytes l1 f hf l2 s hs ih =>
      rw [read_hex_loop]
      simp only [dif_neg hf, dif_neg hs]
      exact ih (NF_read_char _ (NF_read_char l h))

theorem NF_ascii_escape (l : Lexer) (h : NF l) : NF (ascii_escape l).2 := by
  unfold ascii_escape
  split; · exact h
  split; · exact h
  split; · exact h
  split; · exact h
  split; · exact h
  split; · exact h
  exact h

theorem NF_ascii_plain (l : Lexer) (h : NF l) : NF (ascii_plain l) := by
  unfold ascii_plain
  split
  · exact h
  · exact h

theorem NF_utf8_escape (l : Lexer) (h : NF l) : NF (utf8_escape l).2 := by
  unfold utf8_escape
  split; · exact h
  split; · exact h
  split; · exact h
  split; · exact h
  split; · exact h
  split; · exact h
  split; · exact h
  exact h

theorem NF_read_ascii_loop (a b : Nat) (l : Lexer) (e : Bool) (acc : List Char)
    (h : NF l) : NF (read_ascii_loop a b l e acc).2 := by
  induction l, e, acc using read_ascii_loop.induct a b with
  | case1 l acc p ih =>
      rw [read_ascii_loop, if_pos (rfl : (true : Bool) = true)]
      exact ih (NF_read_char _ (NF_ascii_escape l h))
  | case2 l e acc he h2 =>
      rw [read_ascii_loop]
      simp only [if_neg he, if_pos h2]
      exact NF_read_char l h
  | case3 l e acc he h2 h3 ih =>
      rw [read_ascii_loop]
      simp only [if_neg he, if_neg h2, dif_pos h3]
      exact ih (NF_read_char l h)
  | case4 l e acc he h2 h3 h4 =>
      rw [read_ascii_loop]
      simp only [if_neg he, if_neg h2, dif_neg h3, if_pos h4]
      exact h
  | case5 l e acc he h2 h3 h4 ih =>
      rw [read_ascii_loop]
      simp only [if_neg he, if_neg h2, dif_neg h3, if_neg h4]
      exact ih (NF_read_char _ (NF_ascii_plain l h))

theorem NF_read_utf8_loop (a b : Nat) (l : Lexer) (e : Bool) (acc : List Char)
    (h : NF l) : NF (read_utf8_loop a b l e acc).2 := by
  induction l, e, acc using read_utf8_loop.induct a b with
  | case1 l acc p ih =>
      rw [read_utf8_loop, if_pos (rfl : (true : Bool) = true)]
      exact ih (NF_read_char _ (NF_utf8_escape l h))
  | case2 l e acc he h2 =>
      rw [read_utf8_loop]
      simp only [if_neg he, if_pos h2]
      exact NF_read_char l h
  | case3 l e acc he h2 h3 ih =>
      rw [read_utf8_loop]
      simp only [if_neg he, if_neg h2, dif_pos h3]
      exact ih (NF_read_char l h)
  | case4 l e acc he h2 h3 h4 =>
      rw [read_utf8_loop]
      simp only [if_neg he, if_neg h2, dif_neg h3, if_pos h4]
      exact h
  | case5 l e acc he h2 h3 h4 ih =>
      rw [read_utf8_loop]
      simp only [if_neg he, if_neg h2, dif_neg h3, if_neg h4]
      exact ih (NF_read_char l h)

theorem NF_advance (b : Bool) (s : Lexer) (h : NF s) :
    NF (if b = true then read_char s else s) := by
  cases b
  · exact h
  · exact NF_read_char s h

theorem NF_read_token (l : Lexer) (h : NF l) : NF (read_token l).2 := by
  by_cases h1 : l.next = nul
  · have ht : (read_token l).2 = read_char l := by simp [read_token, h1, nul]
    rw [ht]; exact NF_read_char l h
  by_cases h2 : l.next = '('
  · have ht : (read_token l).2 = read_char l := by simp [read_token, h2, nul]
    rw [ht]; exact NF_read_char l h
  by_cases h3 : l.next = ')'
  · have ht : (read_token l).2 = read_char l := by simp [read_token, h3, nul]
    rw [ht]; exact NF_read_char l h
  by_cases h4 : l.next = '{'
  · have ht : (read_token l).2 = read_char l := by simp [read_token, h4, nul]
    rw [ht]; exact NF_read_char l h
  by_cases h5 : l.next = '}'
  · have ht : (read_token l).2 = read_char l := by simp [read_token, h5, nul]
    rw [ht]; exact NF_read_char l h
  by_cases h6 : l.next = ':'
  · have ht : (read_token l).2 = read_char l := by simp [read_token, h6, nul]
    rw [ht]; exact NF_read_char l h
  by_cases h7 : l.next = '.'
  · have ht : (read_token l).2 = read_char l := by simp [read_token, h7, nul]
    rw [ht]; exact NF_read_char l h
  by_cases h8 : l.next = ','
  · have ht : (read_token l).2 = read_char l := by simp [read_token, h8, nul]
    rw [ht]; exact NF_read_char l h
  by_cases h9 : l.next = '+'
  · have ht : (read_token l).2 = read_char l := by simp [read_token, h9, nul]
    rw [ht]; exact NF_read_char l h
  by_cases h10 : l.next = '-'
  · have ht : (read_token l).2 = read_char l := by simp [read_token, h10, nul]
    rw [ht]; exact NF_read_char l h
  by_cases h11 : l.next = '*'
  · have ht : (read_token l).2 = read_char l := by simp [read_token, h11, nul]
    rw [ht]; exact NF_read_char l h
  by_cases h12 : l.next = '/'
  · have ht : (read_token l).2 = read_char l := by simp [read_token, h12, nul]
    rw [ht]; exact NF_read_char l h
  by_cases h13 : l.next = '<'
  · by_cases he : (read_char l).next = '='
    · have ht : (read_token l).2 = read_char (read_char l) := by
        simp [read_token, h13, he, nul]
      rw [ht]; exact NF_read_char _ (NF_read_char l h)
    · have ht : (read_token l).2 = read_char l := by
        simp [read_token, h13, he, nul]
      rw [ht]; exact NF_read_char l h
  by_cases h14 : l.next = '>'
  · by_cases he : (read_char l).next = '='
    · have ht : (read_token l).2 = read_char (read_char l) := by
        simp [read_token, h14, he, nul]
      rw [ht]; exact NF_read_char _ (NF_read_char l h)
    · have ht : (read_token l).2 = read_char l := by
        simp [read_token, h14, he, nul]
      rw [ht]; exact NF_read_char l h
  by_cases h15 : l.next = ';'
  · by_cases hsemi : (read_char l).next = ';'
    · have ht : (read_token l).2 =
          (read_line (skip_whitespace (read_char (read_char l)))).2 := by
        simp [read_token, h15, hsemi, nul]
      rw [ht]
      exact NF_read_line _ (NF_skip_whitespace _ (NF_read_char _ (NF_read_char l h)))
    · have ht : (read_token l).2 =
          (read_line (skip_whitespace
            { read_char l with errors := (read_char l).errors ++
              [{ span := { start_line := (read_char l).last_line,
                           start_column := (read_char l).last_column,
                           end_line := (read_char l).last_line,
                           end_column := (read_char l).last_column },
                 token := Token.Error LexerError.SingleSemiColon }] })).2 := by
        simp [read_token, h15, hsemi, nul]
      rw [ht]
      exact NF_read_line _ (NF_skip_whitespace _ (NF_errors _ _ (NF_read_char l h)))
  by_cases h16 : l.next = 'u'
  · by_cases hd : is_ascii_digit (read_char l).next
    · have ht : (read_token l).2 = (read_unsigned (read_char l)).2 := by
        simp [read_token, h16, hd, nul]
      rw [ht]; exact NF_read_unsigned _ (NF_read_char l h)
    · by_cases hq : (read_char l).next = '"'
      · have ht : (read_token l).2 = (read_utf8_string (read_char l)).2 := by
          simp [read_token, h16, hd, hq, nul, is_ascii_digit]
        rw [ht]
        exact NF_read_utf8_loop _ _ _ _ _ (NF_read_char _ (NF_read_char l h))
      · have ht : (read_token l).2 = (read_identifier (read_char l) (some 'u')).2 := by
          simp [read_token, h16, hd, hq, nul]
        rw [ht]
        exact NF_read_ident_loop _ (NF_read_char l h)
  by_cases h17 : l.next = ' ' ∨ l.next = '\t' ∨ l.next = '\r' ∨ l.next = '\n'
  · have ht : (read_token l).2 = skip_whitespace l := by
      simp [read_token, h1, h2, h3, h4, h5, h6, h7, h8, h9, h10, h11, h12,
        h13, h14, h15, h16, h17]
    rw [ht]; exact NF_skip_whitespace l h
  by_cases h18 : l.next = '"'
  · have ht : (read_token l).2 = (read_ascii_string l).2 := by
      simp [read_token, h18, nul]
    rw [ht]
    exact NF_read_ascii_loop _ _ _ _ _ (NF_read_char l h)
  by_cases h19 : l.next = '0'
  · by_cases hx : (read_char l).next = 'x'
    · have ht : (read_token l).2 = (read_hex (read_char l)).2 := by
        simp [read_token, h19, hx, nul, is_ascii_digit]
      rw [ht]
      exact NF_read_hex_loop _ _ _ _ (NF_read_char l h)
    · by_cases hd : is_ascii_digit (read_char l).next
      · have ht : (read_token l).2 = (read_integer (read_char l)).2 := by
          simp [read_token, h19, hx, hd, nul]
        rw [ht]; exact NF_read_integer _ (NF_read_char l h)
      · by_cases hsep : is_separator (read_char l).next
        · have ht : (read_token l).2 = read_char l := by
            simp [read_token, h19, hx, hd, hsep, nul]
          rw [ht]; exact NF_read_char l h
        · have ht : (read_token l).2 = proceed_through_error (read_char l)
              (LexerError.InvalidCharInt (read_char l).next) := by
            simp [read_token, h19, hx, hd, hsep, nul]
          rw [ht]
          exact NF_proceed_through_error _ _ (NF_read_char l h)
  by_cases h20 : is_ascii_alphabetic l.next
  · have ht : (read_token l).2 = (read_identifier l none).2 := by
      simp [read_token, h1, h2, h3, h4, h5, h6, h7, h8, h9, h10, h11, h12,
        h13, h14, h15, h16, h17, h18, h19, h20]
    rw [ht]; exact NF_read_ident_loop l h
  by_cases h21 : is_ascii_digit l.next
  · have ht : (read_token l).2 = (read_integer l).2 := by
      simp [read_token, h1, h2, h3, h4, h5, h6, h7, h8, h9, h10, h11, h12,
        h13, h14, h15, h16, h17, h18, h19, h20, h21]
    rw [ht]; exact NF_read_integer l h
  · have ht : (read_token l).2 = { l with errors := l.errors ++
        [{ span := { start_line := l.line, start_column := l.column,
                     end_line := l.line, end_column := l.column },
           token := Token.Error (LexerError.UnknownSymbol l.next) }] } := by
      simp [read_token, h1, h2, h3, h4, h5, h6, h7, h8, h9, h10, h11, h12,
        h13, h14, h15, h16, h17, h18, h19, h20, h21]
    rw [ht]; exact NF_errors _ _ h

theorem NF_new (input : List Char) (h : nul ∉ input) : NF (Lexer.new input) := by
  unfold Lexer.new read_char
  cases input with
  | nil => exact ⟨by simp, fun _ => rfl⟩
  | cons c r =>
      refine ⟨fun hm => h (List.mem_cons_of_mem _ hm), fun hn => ?_⟩
      exact absurd (hn ▸ List.mem_cons_self c r : nul ∈ c :: r) h

theorem NF_lexState (input : List Char) (h : nul ∉ input) (k : Nat) :
    NF (lexState input k) := by
  induction k with
  | zero => exact NF_new input h
  | succ k ih => exact NF_read_token _ ih

/-- A call returns `Eof` exactly when the lookahead is the NUL sentinel. -/
theorem read_token_eof_nul (l : Lexer)
    (htok : (read_token l).1.token = Token.Eof) : l.next = nul := by
  by_cases h1 : l.next = nul
  · exact h1
  exfalso
  by_cases h2 : l.next = '('
  · rw [show (read_token l).1.token = Token.Lparen from by
      simp [read_token, h2, nul]] at htok
    exact absurd htok (by simp)
  by_cases h3 : l.next = ')'
  · rw [show (read_token l).1.token = Token.Rparen from by
      simp [read_token, h3, nul]] at htok
    exact absurd htok (by simp)
  by_cases h4 : l.next = '{'
  · rw [show (read_token l).1.token = Token.Lbrace from by
      simp [read_token, h4, nul]] at htok
    exact absurd htok (by simp)
  by_cases h5 : l.next = '}'
  · rw [show (read_token l).1.token = Token.Rbrace from by
      simp [read_token, h5, nul]] at htok
    exact absurd htok (by simp)
  by_cases h6 : l.next = ':'
  · rw [show (read_token l).1.token = Token.Colon from by
      simp [read_token, h6, nul]] at htok
    exact absurd htok (by simp)
  by_cases h7 : l.next = '.'
  · rw [show (read_token l).1.token = Token.Dot from by
      simp [read_token, h7, nul]] at htok
    exact absurd htok (by simp)
  by_cases h8 : l.next = ','
  · rw [show (read_token l).1.token = Token.Comma from by
      simp [read_token, h8, nul]] at htok
    exact absurd htok (by simp)
  by_cases h9 : l.next = '+'
  · rw [show (read_token l).1.token = Token.Plus from by
      simp [read_token, h9, nul]] at htok
    exact absurd htok (by simp)
  by_cases h10 : l.next = '-'
  · rw [show (read_token l).1.token = Token.Minus from by
      simp [read_token, h10, nul]] at htok
    exact absurd htok (by simp)
  by_cases h11 : l.next = '*'
  · rw [show (read_token l).1.token = Token.Multiply from by
      simp [read_token, h11, nul]] at htok
    exact absurd htok (by simp)
  by_cases h12 : l.next = '/'
  · rw [show (read_token l).1.token = Token.Divide from by
      simp [read_token, h12, nul]] at htok
    exact absurd htok (by simp)
  by_cases h13 : l.next = '<'
  · by_cases he : (read_char l).next = '='
    · rw [show (read_token l).1.token = Token.LessEqual from by
        simp [read_token, h13, he, nul]] at htok
      exact absurd htok (by simp)
    · rw [show (read_token l).1.token = Token.Less from by
        simp [read_token, h13, he, nul]] at htok
      exact absurd htok (by simp)
  by_cases h14 : l.next = '>'
  · by_cases he : (read_char l).next = '='
    · rw [show (read_token l).1.token = Token.GreaterEqual from by
        simp [read_token, h14, he, nul]] at htok
      exact absurd htok (by simp)
    · rw [show (read_token l).1.token = Token.Greater from by
        simp [read_token, h14, he, nul]] at htok
      exact absurd htok (by simp)
  by_cases h15 : l.next = ';'
  · by_cases hsemi : (read_char l).next = ';'
    · rw [show (read_token l).1.token = Token.Comment (read_line (skip_whitespace
          (read_char (read_char l)))).1 from by
        simp [read_token, h15, hsemi, nul]] at htok
      exact absurd htok (by simp)
    · rw [show (read_token l).1.token = Token.Comment (read_line (skip_whitespace
          { read_char l with errors := (read_char l).errors ++
            [{ span := { start_line := (read_char l).last_line,
                         start_column := (read_char l).last_column,
                         end_line := (read_char l).last_line,
                         end_column := (read_char l).last_column },
               token := Token.Error LexerError.SingleSemiColon }] })).1 from by
        simp [read_token, h15, hsemi, nul]] at htok
      exact absurd htok (by simp)
  by_cases h16 : l.next = 'u'
  · by_cases hd : is_ascii_digit (read_char l).next
    · rw [show (read_token l).1.token =
          Token.Uint (read_unsigned (read_char l)).1 from by
        simp [read_token, h16, hd, nul]] at htok
      exact absurd htok (by simp)
    · by_cases hq : (read_char l).next = '"'
      · rw [show (read_token l).1.token =
            Token.Utf8String (read_utf8_string (read_char l)).1 from by
          simp [read_token, h16, hd, hq, nul, is_ascii_digit]] at htok
        exact absurd htok (by simp)
      · rw [show (read_token l).1.token =
            Token.Ident (read_identifier (read_char l) (some 'u')).1 from by
          simp [read_token, h16, hd, hq, nul]] at htok
        exact absurd htok (by simp)
  by_cases h17 : l.next = ' ' ∨ l.next = '\t' ∨ l.next = '\r' ∨ l.next = '\n'
  · rw [show (read_token l).1.token = Token.Whitespace from by
      simp [read_token, h1, h2, h3, h4, h5, h6, h7, h8, h9, h10, h11, h12,
        h13, h14, h15, h16, h17]] at htok
    exact absurd htok (by simp)
  by_cases h18 : l.next = '"'
  · rw [show (read_token l).1.token =
        Token.AsciiString (read_ascii_string l).1 from by
      simp [read_token, h18, nul]] at htok
    exact absurd htok (by simp)
  by_cases h19 : l.next = '0'
  · by_cases hx : (read_char l).next = 'x'
    · rw [show (read_token l).1.token =
          Token.Bytes (read_hex (read_char l)).1 from by
        simp [read_token, h19, hx, nul, is_ascii_digit]] at htok
      exact absurd htok (by simp)
    · by_cases hd : is_ascii_digit (read_char l).next
      · rw [show (read_token l).1.token =
            Token.Int (read_integer (read_char l)).1 from by
          simp [read_token, h19, hx, hd, nul]] at htok
        exact absurd htok (by simp)
      · by_cases hsep : is_separator (read_char l).next
        · rw [show (read_token l).1.token = Token.Int 0 from by
            simp [read_token, h19, hx, hd, hsep, nul]] at htok
          exact absurd htok (by simp)
        · rw [show (read_token l).1.token = Token.Int 0 from by
            simp [read_token, h19, hx, hd, hsep, nul]] at htok
          exact absurd htok (by simp)
  by_cases h20 : is_ascii_alphabetic l.next
  · rw [show (read_token l).1.token = Token.Ident (read_identifier l none).1 from by
      simp [read_token, h1, h2, h3, h4, h5, h6, h7, h8, h9, h10, h11, h12,
        h13, h14, h15, h16, h17, h18, h19, h20]] at htok
    exact absurd htok (by simp)
  by_cases h21 : is_ascii_digit l.next
  · rw [show (read_token l).1.token = Token.Int (read_integer l).1 from by
      simp [read_token, h1, h2, h3, h4, h5, h6, h7, h8, h9, h10, h11, h12,
        h13, h14, h15, h16, h17, h18, h19, h20, h21]] at htok
    exact absurd htok (by simp)
  · rw [show (read_token l).1.token = Token.Placeholder from by
      simp [read_token, h1, h2, h3, h4, h5, h6, h7, h8, h9, h10, h11, h12,
        h13, h14, h15, h16, h17, h18, h19, h20, h21]] at htok
    exact absurd htok (by simp)

/-- At true end of input: the call yields `Eof`, consumes nothing, records
no error, leaves the line untouched — but still bumps offset and column. -/
theorem eof_step (s : Lexer) (hn : s.next = nul) (hi : s.input = []) :
    (read_token s).1.token = Token.Eof ∧
    (read_token s).2.next = nul ∧ (read_token s).2.input = [] ∧
    (read_token s).2.line = s.line ∧ (read_token s).2.errors = s.errors ∧
    (read_token s).2.offset = s.offset + 1 ∧
    (read_token s).2.column = s.column + 1 := by
  have h1 : (read_token s).1.token = Token.Eof := by simp [read_token, hn, nul]
  have h2 : (read_token s).2 = read_char s := by simp [read_token, hn, nul]
  refine ⟨h1, ?_, ?_, ?_, ?_, ?_, ?_⟩ <;> rw [h2] <;>
    simp [read_char, hi, hn, nul]

/-- C3 (amended): on NUL-free input, once `read_token` has returned `Eof`,
every subsequent call returns `Eof` again, consumes no input (the lookahead
stays NUL with the iterator exhausted), leaves the line counter and the
error list unchanged — but the offset and column counters still increment
by one on every such call. -/
theorem c3_eof_stable (input : List Char) (hnf : nul ∉ input) (k : Nat)
    (hk : (lexTok input k).token = Token.Eof) (m : Nat) (hm : k < m) :
    (lexTok input m).token = Token.Eof ∧
    (lexState input (m + 1)).next = nul ∧
    (lexState input (m + 1)).input = [] ∧
    (lexState input (m + 1)).line = (lexState input m).line ∧
    (lexState input (m + 1)).errors = (lexState input m).errors ∧
    (lexState input (m + 1)).offset = (lexState input m).offset + 1 ∧
    (lexState input (m + 1)).column = (lexState input m).column + 1 := by
  have hkn : (lexState input k).next = nul := read_token_eof_nul _ hk
  have hki : (lexState input k).input = [] :=
    (NF_lexState input hnf k).2 hkn
  have key : ∀ j : Nat, (lexState input (k + 1 + j)).next = nul ∧
      (lexState input (k + 1 + j)).input = [] := by
    intro j
    induction j with
    | zero =>
        have h := eof_step (lexState input k) hkn hki
        exact ⟨h.2.1, h.2.2.1⟩
    | succ j ih =>
        have h := eof_step (lexState input (k + 1 + j)) ih.1 ih.2
        exact ⟨h.2.1, h.2.2.1⟩
  obtain ⟨j, rfl⟩ : ∃ j, m = k + 1 + j := ⟨m - (k + 1), by omega⟩
  have hst : (lexState input (k + 1 + j)).next = nul ∧
      (lexState input (k + 1 + j)).input = [] := key j
  have h := eof_step (lexState input (k + 1 + j)) hst.1 hst.2
  exact ⟨h.1, h.2.1, h.2.2.1, h.2.2.2.1, h.2.2.2.2.1, h.2.2.2.2.2.1,
    h.2.2.2.2.2.2⟩

/-- C3 counterexample to the claim as stated: (a) with an interior NUL
(input `"\0b"`) the first call returns `Eof` but the second returns
`Ident "b"` — Eof is not stable; (b) even on the empty input, repeated
`Eof` calls keep incrementing both offset and column. -/
theorem c3_eof_claim_false :
    (lexTok [nul, 'b'] 0).token = Token.Eof ∧
    (lexTok [nul, 'b'] 1).token = Token.Ident ['b'] ∧
    (lexTok ([] : List Char) 0).token = Token.Eof ∧
    (lexState ([] : List Char) 1).offset = 2 ∧
    (lexState ([] : List Char) 2).offset = 3 ∧
    (lexState ([] : List Char) 1).column = 2 ∧
    (lexState ([] : List Char) 2).column = 3 := by
  refine ⟨?_, ?_, ?_, ?_, ?_, ?_, ?_⟩ <;>
    simp [lexTok, lexState, Lexer.new, read_token, read_char, read_identifier,
      read_ident_loop, is_ident_char, is_separator, is_ascii_whitespace,
      is_ascii_alphabetic, is_ascii_digit, nul]

/-- Witness for C3 (amended) on input `"a"`: `Eof` first occurs at call 1
and call 2 yields `Eof` again without consuming input or erroring. -/
theorem c3_eof_stable_witness :
    nul ∉ ['a'] ∧ (lexTok ['a'] 1).token = Token.Eof ∧ 1 < 2 ∧
    ((lexTok ['a'] 2).token = Token.Eof ∧
      (lexState ['a'] 3).next = nul ∧
      (lexState ['a'] 3).input = [] ∧
      (lexState ['a'] 3).line = (lexState ['a'] 2).line ∧
      (lexState ['a'] 3).errors = (lexState ['a'] 2).errors ∧
      (lexState ['a'] 3).offset = (lexState ['a'] 2).offset + 1 ∧
      (lexState ['a'] 3).column = (lexState ['a'] 2).column + 1) := by
  have hnf : nul ∉ ['a'] := by decide
  have hk : (lexTok ['a'] 1).token = Token.Eof := by
    simp [lexTok, lexState, Lexer.new, read_token, read_char, read_identifier,
      read_ident_loop, is_ident_char, is_separator, is_ascii_whitespace,
      is_ascii_alphabetic, is_ascii_digit, nul]
  exact ⟨hnf, hk, by norm_num, c3_eof_stable ['a'] hnf 1 hk 2 (by norm_num)⟩

/-! ### C2: span coverage.  Positions of input characters. -/

/-- Position advance for one consumed character, mirroring `read_char`'s
line/column bookkeeping: a newline moves to column 1 of the next line. -/
def posStep (p : Nat × Nat) (c : Char) : Nat × Nat :=
  if c = '\n' then (p.1 + 1, 1) else (p.1, p.2 + 1)

/-- Position after scanning `l` starting at `st`. -/
def posFrom (st : Nat × Nat) (l : List Char) : Nat × Nat :=
  l.foldl posStep st

/-- Position of the next character after the consumed prefix `p`
(1-based, starting at line 1 column 1). -/
def posA (p : List Char) : Nat × Nat :=
  posFrom (1, 1) p

/-- Position of the last consumed character of `p` ((1,0) for the empty
prefix, matching the scanner's initial `last_line`/`last_column`). -/
def lastP (p : List Char) : Nat × Nat :=
  if p.isEmpty then (1, 0) else posA p.dropLast

/-- Strict lexicographic order on (line, column) positions. -/
def posLt (a b : Nat × Nat) : Prop :=
  a.1 < b.1 ∨ (a.1 = b.1 ∧ a.2 < b.2)

/-- Lexicographic order on (line, column) positions. -/
def posLe (a b : Nat × Nat) : Prop :=
  a.1 < b.1 ∨ (a.1 = b.1 ∧ a.2 ≤ b.2)

instance (a b : Nat × Nat) : Decidable (posLt a b) :=
  inferInstanceAs (Decidable (_ ∨ _))

instance (a b : Nat × Nat) : Decidable (posLe a b) :=
  inferInstanceAs (Decidable (_ ∨ _))

theorem posLe_refl (a : Nat × Nat) : posLe a a := Or.inr ⟨rfl, le_refl _⟩

theorem posLt_le (a b : Nat × Nat) (h : posLt a b) : posLe a b := by
  rcases h with h | ⟨h1, h2⟩
  · exact Or.inl h
  · exact Or.inr ⟨h1, le_of_lt h2⟩

theorem posLe_lt_trans (a b c : Nat × Nat) (h1 : posLe a b) (h2 : posLt b c) :
    posLt a c := by
  rcases h1 with h1 | ⟨h1, h1c⟩ <;> rcases h2 with h2 | ⟨h2, h2c⟩
  · exact Or.inl (h1.trans h2)
  · exact Or.inl (h2 ▸ h1)
  · exact Or.inl (h1 ▸ h2)
  · exact Or.inr ⟨h1.trans h2, lt_of_le_of_lt h1c h2c⟩

theorem posLt_le_trans (a b c : Nat × Nat) (h1 : posLt a b) (h2 : posLe b c) :
    posLt a c := by
  rcases h1 with h1 | ⟨h1, h1c⟩ <;> rcases h2 with h2 | ⟨h2, h2c⟩
  · exact Or.inl (h1.trans h2)
  · exact Or.inl (h2 ▸ h1)
  · exact Or.inl (h1 ▸ h2)
  · exact Or.inr ⟨h1.trans h2, lt_of_lt_of_le h1c h2c⟩

theorem posLe_trans (a b c : Nat × Nat) (h1 : posLe a b) (h2 : posLe b c) :
    posLe a c := by
  rcases h1 with h1 | ⟨h1, h1c⟩ <;> rcases h2 with h2 | ⟨h2, h2c⟩
  · exact Or.inl (h1.trans h2)
  · exact Or.inl (h2 ▸ h1)
  · exact Or.inl (h1 ▸ h2)
  · exact Or.inr ⟨h1.trans h2, h1c.trans h2c⟩

theorem posLt_not_le (a b : Nat × Nat) (h : posLt a b) : ¬ posLe b a := by
  intro h2
  rcases posLt_le_trans a b a h h2 with h3 | ⟨h3, h3c⟩
  · exact absurd h3 (lt_irrefl _)
  · exact absurd h3c (lt_irrefl _)

theorem posStep_lt (p : Nat × Nat) (c : Char) : posLt p (posStep p c) := by
  unfold posStep
  split
  · exact Or.inl (Nat.lt_succ_self _)
  · exact Or.inr ⟨rfl, Nat.lt_succ_self _⟩

theorem posFrom_le (st : Nat × Nat) (l : List Char) : posLe st (posFrom st l) := by
  induction l generalizing st with
  | nil => exact posLe_refl st
  | cons c cs ih =>
      exact posLe_trans _ _ _ (posLt_le _ _ (posStep_lt st c))
        (by simpa [posFrom] using ih (posStep st c))

theorem posFrom_append (st : Nat × Nat) (a b : List Char) :
    posFrom st (a ++ b) = posFrom (posFrom st a) b := by
  simp [posFrom, List.foldl_append]

theorem posA_append_one (p : List Char) (c : Char) :
    posA (p ++ [c]) = posStep (posA p) c := by
  simp [posA, posFrom, List.foldl_append]

theorem lastP_append_one (p : List Char) (c : Char) :
    lastP (p ++ [c]) = posA p := by
  unfold lastP
  rw [List.dropLast_concat]
  simp

theorem lastP_lt_posA (p : List Char) : posLt (lastP p) (posA p) := by
  unfold lastP
  cases hp : p with
  | nil => simp [posA, posFrom]; exact Or.inr ⟨rfl, Nat.lt_succ_self 0⟩
  | cons c cs =>
      simp only [List.isEmpty_cons, Bool.false_eq_true, if_false]
      have h2 : (c :: cs) = (c :: cs).dropLast ++ [(c :: cs).getLast (by simp)] :=
        (List.dropLast_append_getLast (by simp)).symm
      conv_rhs => rw [h2]
      rw [posA_append_one]
      exact posStep_lt _ _

/-- The characters of `l` paired with their positions, scanning from `st`. -/
def pList (st : Nat × Nat) : List Char → List ((Nat × Nat) × Char)
  | [] => []
  | c :: cs => (st, c) :: pList (posStep st c) cs

theorem pList_append (st : Nat × Nat) (a b : List Char) :
    pList st (a ++ b) = pList st a ++ pList (posFrom st a) b := by
  induction a generalizing st with
  | nil => simp [pList, posFrom]
  | cons c cs ih =>
      rw [show ((c :: cs) ++ b : List Char) = c :: (cs ++ b) from rfl]
      rw [show pList st (c :: (cs ++ b)) =
        (st, c) :: pList (posStep st c) (cs ++ b) from rfl]
      rw [ih]
      rw [show pList st (c :: cs) = (st, c) :: pList (posStep st c) cs from rfl]
      rw [show posFrom st (c :: cs) = posFrom (posStep st c) cs from by
        simp [posFrom]]
      simp

theorem pList_map_snd (st : Nat × Nat) (l : List Char) :
    (pList st l).map Prod.snd = l := by
  induction l generalizing st with
  | nil => rfl
  | cons c cs ih => simp [pList, ih]

theorem mem_pList_ge (st : Nat × Nat) (l : List Char) :
    ∀ x ∈ pList st l, posLe st x.1 := by
  induction l generalizing st with
  | nil => intro x hx; simp [pList] at hx
  | cons c cs ih =>
      intro x hx
      rcases (List.mem_cons).mp hx with h | h
      · rw [h]; exact posLe_refl st
      · exact posLe_trans _ _ _ (posLt_le _ _ (posStep_lt st c))
          (ih (posStep st c) x h)

theorem mem_pList_lt (st : Nat × Nat) (l : List Char) :
    ∀ x ∈ pList st l, posLt x.1 (posFrom st l) := by
  induction l generalizing st with
  | nil => intro x hx; simp [pList] at hx
  | cons c cs ih =>
      intro x hx
      rcases (List.mem_cons).mp hx with h | h
      · rw [h]
        exact posLt_le_trans _ _ _ (posStep_lt st c)
          (by simpa [posFrom] using posFrom_le (posStep st c) cs)
      · simpa [posFrom] using ih (posStep st c) x h

theorem mem_pList_le_last (st : Nat × Nat) (l : List Char) (hl : l ≠ []) :
    ∀ x ∈ pList st l, posLe x.1 (posFrom st l.dropLast) := by
  induction l generalizing st with
  | nil => exact absurd rfl hl
  | cons c cs ih =>
      intro x hx
      cases hcs : cs with
      | nil =>
          subst hcs
          simp only [pList, List.mem_singleton] at hx
          rw [hx]
          show posLe st (posFrom st ([c] : List Char).dropLast)
          rw [show ([c] : List Char).dropLast = [] from rfl]
          exact posLe_refl st
      | cons d ds =>
          subst hcs
          have hdl : ((c :: d :: ds) : List Char).dropLast =
              c :: (d :: ds).dropLast := rfl
          rcases (List.mem_cons).mp hx with h | h
          · rw [h]
            show posLe st (posFrom st ((c :: d :: ds) : List Char).dropLast)
            rw [hdl]
            exact posFrom_le st _
          · have h2 := ih (posStep st c) (by simp) x h
            show posLe x.1 (posFrom st ((c :: d :: ds) : List Char).dropLast)
            rw [hdl]
            rw [show posFrom st (c :: (d :: ds).dropLast) =
              posFrom (posStep st c) ((d :: ds).dropLast) from by simp [posFrom]]
            exact h2

/-- Whether a position lies inside a span (inclusive on both ends). -/
def inSpan (sp : Span) (q : Nat × Nat) : Prop :=
  posLe (sp.start_line, sp.start_column) q ∧
    posLe q (sp.end_line, sp.end_column)

instance (sp : Span) (q : Nat × Nat) : Decidable (inSpan sp q) :=
  inferInstanceAs (Decidable (_ ∧ _))

/-- The substring of `input` covered by a span: the characters whose
position lies inside it, in order. -/
def spanSub (input : List Char) (sp : Span) : List Char :=
  ((pList (1, 1) input).filter (fun pc => decide (inSpan sp pc.1))).map Prod.snd

/-- A span that starts exactly at the first character after `p` and ends
either at the last character of the chunk `q` or (only at end of input) one
position past it covers exactly `q`. -/
theorem spanSub_exact (p q r : List Char) (sp : Span)
    (hstart : (sp.start_line, sp.start_column) = posA p)
    (hge : ∀ x ∈ pList (posA p) q, posLe x.1 (sp.end_line, sp.end_column))
    (hlt : posLt (sp.end_line, sp.end_column) (posFrom (posA p) q) ∨ r = []) :
    spanSub (p ++ (q ++ r)) sp = q := by
  unfold spanSub
  rw [pList_append, pList_append, List.filter_append, List.filter_append]
  have hp : (pList (1, 1) p).filter (fun pc => decide (inSpan sp pc.1)) = [] := by
    rw [List.filter_eq_nil_iff]
    intro x hx
    have hxlt : posLt x.1 (posA p) := mem_pList_lt (1, 1) p x hx
    simp only [decide_eq_true_eq, inSpan, not_and_or]
    left
    rw [hstart]
    exact posLt_not_le _ _ hxlt
  have hq : (pList (posFrom (1, 1) p) q).filter (fun pc => decide (inSpan sp pc.1)) =
      pList (posFrom (1, 1) p) q := by
    rw [List.filter_eq_self]
    intro x hx
    simp only [decide_eq_true_eq, inSpan]
    refine ⟨?_, ?_⟩
    · rw [hstart]
      exact mem_pList_ge _ q x hx
    · exact hge x hx
  have hr : (pList (posFrom (posFrom (1, 1) p) q) r).filter
      (fun pc => decide (inSpan sp pc.1)) = [] := by
    rcases hlt with hlt | hnil
    · rw [List.filter_eq_nil_iff]
      intro x hx
      have hxge : posLe (posFrom (posFrom (1, 1) p) q) x.1 := mem_pList_ge _ r x hx
      have hxgt : posLt (sp.end_line, sp.end_column) x.1 :=
        posLt_le_trans _ _ _ hlt hxge
      simp only [decide_eq_true_eq, inSpan, not_and_or]
      right
      exact posLt_not_le _ _ hxgt
    · rw [hnil]; rfl
  rw [hp, hq, hr]
  simp [pList_map_snd]
/-- The characters the scanner can still consume: the lookahead (unless it
is the NUL sentinel) followed by the unread input. -/
def lrem (s : Lexer) : List Char :=
  if s.next = nul then [] else s.next :: s.input

/-- One-column bump: the position drift produced by a `read_char` past the
end of the input. -/
def bump (q : Nat × Nat) : Nat × Nat := (q.1, q.2 + 1)

/-- Scanner-state invariant for span coverage on a NUL-free `input`: `p` is
the consumed prefix; the line/column pair is the position of the next
character (or, past end of input, one column beyond); the
`last_line`/`last_column` pair is the position of the last consumed
character (or, past end of input, the position one past it). -/
def Inv (input p : List Char) (s : Lexer) : Prop :=
  nul ∉ input ∧
  input = p ++ lrem s ∧
  (s.next = nul → s.input = []) ∧
  ((s.line, s.column) = posA p ∨ (lrem s = [] ∧ (s.line, s.column) = bump (posA p))) ∧
  ((s.last_line, s.last_column) = lastP p ∨ (lrem s = [] ∧ (s.last_line, s.last_column) = posA p))

theorem lrem_of_ne (s : Lexer) (h : s.next ≠ nul) :
    lrem s = s.next :: s.input := by
  unfold lrem; rw [if_neg h]

theorem lrem_of_nul (s : Lexer) (h : s.next = nul) : lrem s = [] := by
  unfold lrem; rw [if_pos h]

theorem Inv_new (input : List Char) (h : nul ∉ input) :
    Inv input [] (Lexer.new input) := by
  unfold Lexer.new read_char
  cases hin : input with
  | nil =>
      refine ⟨by simp, ?_, fun _ => rfl, Or.inl rfl, Or.inl rfl⟩
      simp [lrem, nul]
  | cons c r =>
      have hc : c ≠ nul := fun hc => (hin ▸ h) (hc ▸ List.mem_cons_self c r)
      refine ⟨hin ▸ h, ?_, fun hn => absurd hn hc, Or.inl rfl, Or.inl rfl⟩
      simp [lrem, hc]

theorem Inv_read_char (input p : List Char) (s : Lexer) (h : Inv input p s)
    (hn : s.next ≠ nul) :
    Inv input (p ++ [s.next]) (read_char s) ∧
      lrem s = s.next :: lrem (read_char s) ∧
      ((read_char s).line, (read_char s).column) = posA (p ++ [s.next]) := by
  obtain ⟨hnf, hin, hemp, hP, hL⟩ := h
  have hrem : lrem s = s.next :: s.input := lrem_of_ne s hn
  have hP1 : (s.line, s.column) = posA p := by
    rcases hP with hP | ⟨hP0, _⟩
    · exact hP
    · rw [hrem] at hP0; exact absurd hP0 (by simp)
  have hpos : ((read_char s).line, (read_char s).column) =
      posStep (posA p) s.next := by
    unfold read_char posStep
    cases s.input <;>
      · by_cases hnl : s.next = '\n' <;>
          simp [hnl] <;> rw [← hP1] <;> simp [hnl]
  have hlast : ((read_char s).last_line, (read_char s).last_column) =
      posA p := by
    unfold read_char
    cases s.input <;> simpa using hP1
  cases hi : s.input with
  | nil =>
      have hrc : read_char s =
          { s with
            last_line := s.line
            last_column := s.column
            line := if s.next = '\n' then s.line + 1 else s.line
            next := nul
            offset := s.offset + 1
            column := (if s.next = '\n' then 0 else s.column) + 1 } := by
        unfold read_char; rw [hi]
      have hrem' : lrem (read_char s) = [] := by
        rw [hrc]; exact lrem_of_nul _ rfl
      refine ⟨⟨hnf, ?_, ?_, ?_, ?_⟩, ?_, by rw [hpos, posA_append_one]⟩
      · rw [hin, hrem, hi, hrem']; simp
      · intro _; rw [hrc]; exact hi
      · left; rw [hpos, posA_append_one]
      · left
        rw [hlast, lastP_append_one]
      · rw [hrem, hi, hrem']
  | cons c rest =>
      have hc : c ≠ nul := by
        intro hc
        apply hnf
        rw [hin, hrem, hi, hc]
        simp
      have hrc : read_char s =
          { s with
            last_line := s.line
            last_column := s.column
            line := if s.next = '\n' then s.line + 1 else s.line
            next := c
            input := rest
            offset := s.offset + 1
            column := (if s.next = '\n' then 0 else s.column) + 1 } := by
        unfold read_char; rw [hi]
      have hrem' : lrem (read_char s) = c :: rest := by
        rw [hrc]; exact lrem_of_ne _ hc
      refine ⟨⟨hnf, ?_, ?_, ?_, ?_⟩, ?_, by rw [hpos, posA_append_one]⟩
      · rw [hin, hrem, hi, hrem']; simp
      · intro hcn; rw [hrc] at hcn; exact absurd hcn hc
      · left; rw [hpos, posA_append_one]
      · left
        rw [hlast, lastP_append_one]
      · rw [hrem, hi, hrem']

theorem Inv_read_char_over (input p : List Char) (s : Lexer) (h : Inv input p s)
    (hn : s.next = nul) (hpos : (s.line, s.column) = posA p) :
    Inv input p (read_char s) ∧ (read_char s).next = nul ∧
      (read_char s).input = [] := by
  obtain ⟨hnf, hin, hemp, hP, hL⟩ := h
  have hi : s.input = [] := hemp hn
  have hrc : read_char s =
      { s with
        last_line := s.line
        last_column := s.column
        line := if s.next = '\n' then s.line + 1 else s.line
        next := nul
        offset := s.offset + 1
        column := (if s.next = '\n' then 0 else s.column) + 1 } := by
    unfold read_char; rw [hi]
  have hnl : s.next ≠ '\n' := by rw [hn]; decide
  have hrem : lrem s = [] := lrem_of_nul s hn
  have hrem' : lrem (read_char s) = [] := by rw [hrc]; exact lrem_of_nul _ rfl
  refine ⟨⟨hnf, ?_, ?_, ?_, ?_⟩, by rw [hrc], by rw [hrc]; exact hi⟩
  · rw [hin, hrem, hrem']
  · intro _; rw [hrc]; exact hi
  · right
    refine ⟨hrem', ?_⟩
    rw [hrc]
    simp only [if_neg hnl]
    rw [show (s.line, s.column + 1) = bump (s.line, s.column) from rfl, hpos]
  · right
    refine ⟨hrem', ?_⟩
    rw [hrc]
    simpa using hpos

/-- `s'` is reachable from `s` by consuming the chunk `q`, preserving the
invariant. -/
def Consumes (input p : List Char) (s t : Lexer) : Prop :=
  ∃ q, lrem s = q ++ lrem t ∧ Inv input (p ++ q) t

theorem Consumes_refl (input p : List Char) (s : Lexer) (h : Inv input p s) :
    Consumes input p s s :=
  ⟨[], by simp, by simpa⟩

theorem Consumes_comp {input p : List Char} {s t u : Lexer}
    (h1 : Consumes input p s t)
    (h2 : ∀ p2, Inv input p2 t → Consumes input p2 t u) :
    Consumes input p s u := by
  obtain ⟨q1, hr1, hI1⟩ := h1
  obtain ⟨q2, hr2, hI2⟩ := h2 (p ++ q1) hI1
  exact ⟨q1 ++ q2, by rw [hr1, hr2, List.append_assoc],
    by rwa [← List.append_assoc]⟩

theorem Consumes_read_char (input p : List Char) (s : Lexer)
    (h : Inv input p s) (hn : s.next ≠ nul) :
    Consumes input p s (read_char s) := by
  obtain ⟨hI, hr, _⟩ := Inv_read_char input p s h hn
  exact ⟨[s.next], hr, hI⟩

theorem Inv_errors_update (input p : List Char) (s : Lexer)
    (e : List PlacedToken) (h : Inv input p s) :
    Inv input p { s with errors := e } := h

theorem Consumes_errors {input p : List Char} {s t : Lexer}
    (e : List PlacedToken) (h : Consumes input p s t) :
    Consumes input p s { t with errors := e } := by
  obtain ⟨q, hr, hI⟩ := h
  exact ⟨q, hr, Inv_errors_update _ _ _ _ hI⟩

theorem Consumes_skip_whitespace (l : Lexer) :
    ∀ (input p : List Char), Inv input p l →
      Consumes input p l (skip_whitespace l) := by
  induction l using skip_whitespace.induct with
  | case1 l hc ih =>
      intro input p h
      rw [skip_whitespace, dif_pos hc]
      exact Consumes_comp (Consumes_read_char input p l h hc.1)
        (fun p2 h2 => ih input p2 h2)
  | case2 l hc =>
      intro input p h
      rw [skip_whitespace, dif_neg hc]
      exact Consumes_refl input p l h

theorem Consumes_read_line (l : Lexer) :
    ∀ (input p : List Char), Inv input p l →
      Consumes input p l (read_line l).2 := by
  induction l using read_line.induct with
  | case1 l hc =>
      intro input p h
      rw [read_line, dif_pos hc]
      exact Consumes_refl input p l h
  | case2 l hc hc2 ih =>
      intro input p h
      rw [read_line, dif_neg hc, if_pos hc2]
      exact Consumes_comp
        (Consumes_read_char input p l h (fun hn => hc (Or.inr hn)))
        (fun p2 h2 => ih input p2 h2)
  | case3 l hc hc2 ih =>
      intro input p h
      rw [read_line, dif_neg hc, if_neg hc2]
      exact Consumes_comp
        (Consumes_read_char input p l h (fun hn => hc (Or.inr hn)))
        (fun p2 h2 => ih input p2 h2)

theorem Consumes_skip_to_separator (l : Lexer) :
    ∀ (input p : List Char), Inv input p l →
      Consumes input p l (skip_to_separator l) := by
  induction l using skip_to_separator.induct with
  | case1 l hc =>
      intro input p h
      rw [skip_to_separator, dif_pos hc]
      exact Consumes_refl input p l h
  | case2 l hc ih =>
      intro input p h
      rw [skip_to_separator, dif_neg hc]
      refine Consumes_comp (Consumes_read_char input p l h ?_)
        (fun p2 h2 => ih input p2 h2)
      intro hn
      rw [hn] at hc
      exact hc nul_separator

theorem Consumes_proceed_through_error (l : Lexer) (err : LexerError)
    (input p : List Char) (h : Inv input p l) :
    Consumes input p l (proceed_through_error l err) :=
  Consumes_errors _ (Consumes_skip_to_separator l input p h)

theorem Consumes_read_ident_loop (l : Lexer) :
    ∀ (input p : List Char), Inv input p l →
      Consumes input p l (read_ident_loop l).2 := by
  induction l using read_ident_loop.induct with
  | case1 l hc ih =>
      intro input p h
      rw [read_ident_loop, dif_pos hc]
      refine Consumes_comp (Consumes_read_char input p l h ?_)
        (fun p2 h2 => ih input p2 h2)
      intro hn
      rw [hn, nul_not_ident_char] at hc
      exact Bool.false_ne_true hc
  | case2 l hc hc2 =>
      intro input p h
      rw [read_ident_loop, dif_neg hc, if_pos hc2]
      exact Consumes_refl input p l h
  | case3 l hc hc2 =>
      intro input p h
      rw [read_ident_loop, dif_neg hc, if_neg hc2]
      exact Consumes_proceed_through_error l _ input p h

theorem Consumes_read_uint_loop (l : Lexer) (num : Nat) :
    ∀ (input p : List Char), Inv input p l →
      Consumes input p l (read_uint_loop l num).2 := by
  induction l, num using read_uint_loop.induct with
  | case1 l num hc ih =>
      intro input p h
      rw [read_uint_loop, dif_pos hc]
      refine Consumes_comp (Consumes_read_char input p l h ?_)
        (fun p2 h2 => ih input p2 h2)
      intro hn
      rw [hn, nul_not_digit] at hc
      exact Bool.false_ne_true hc
  | case2 l num hc =>
      intro input p h
      rw [read_uint_loop, dif_neg hc]
      exact Consumes_refl input p l h

theorem Consumes_read_int_loop (l : Lexer) (num : Int) :
    ∀ (input p : List Char), Inv input p l →
      Consumes input p l (read_int_loop l num).2 := by
  induction l, num using read_int_loop.induct with
  | case1 l num hc ih =>
      intro input p h
      rw [read_int_loop, dif_pos hc]
      refine Consumes_comp (Consumes_read_char input p l h ?_)
        (fun p2 h2 => ih input p2 h2)
      intro hn
      rw [hn, nul_not_digit] at hc
      exact Bool.false_ne_true hc
  | case2 l num hc =>
      intro input p h
      rw [read_int_loop, dif_neg hc]
      exact Consumes_refl input p l h

theorem Consumes_read_unsigned (l : Lexer) (input p : List Char)
    (h : Inv input p l) : Consumes input p l (read_unsigned l).2 := by
  simp only [read_unsigned]
  split
  · exact Consumes_read_uint_loop l 0 input p h
  · exact Consumes_comp (Consumes_read_uint_loop l 0 input p h)
      (fun p2 h2 => Consumes_proceed_through_error _ _ input p2 h2)

theorem Consumes_read_integer (l : Lexer) (input p : List Char)
    (h : Inv input p l) : Consumes input p l (read_integer l).2 := by
  simp only [read_integer]
  split
  · exact Consumes_read_int_loop l 0 input p h
  · exact Consumes_comp (Consumes_read_int_loop l 0 input p h)
      (fun p2 h2 => Consumes_proceed_through_error _ _ input p2 h2)

theorem Consumes_read_hex_loop (a b : Nat) (l : Lexer) (bytes : List Nat) :
    ∀ (input p : List Char), Inv input p l → l.next ≠ nul →
      Consumes input p l (read_hex_loop a b l bytes).2 := by
  induction l, bytes using read_hex_loop.induct a b with
  | case1 l bytes l1 f hf =>
      intro input p h hn
      rw [read_hex_loop]
      simp only [dif_pos hf]
      split
      · exact Consumes_comp (Consumes_read_char input p l h hn)
          (fun p2 h2 => Consumes_proceed_through_error _ _ input p2 h2)
      · exact Consumes_read_char input p l h hn
  | case2 l bytes l1 f hf l2 s2 hs =>
      intro input p h hn
      have hf2 : is_ascii_hexdigit (read_char l).next = true := not_not.mp hf
      have hfn : (read_char l).next ≠ nul := by
        intro he
        rw [he, nul_not_hexdigit] at hf2
        exact Bool.false_ne_true hf2
      rw [read_hex_loop]
      simp only [dif_neg hf, dif_pos hs]
      split
      · exact Consumes_errors _ (Consumes_comp (Consumes_read_char input p l h hn)
          (fun p2 h2 => Consumes_read_char input p2 _ h2 hfn))
      · exact Consumes_comp (Consumes_comp (Consumes_read_char input p l h hn)
          (fun p2 h2 => Consumes_read_char input p2 _ h2 hfn))
          (fun p2 h2 => Consumes_proceed_through_error _ _ input p2 h2)
  | case3 l bytes l1 f hf l2 s2 hs ih =>
      intro input p h hn
      have hf2 : is_ascii_hexdigit (read_char l).next = true := not_not.mp hf
      have hfn : (read_char l).next ≠ nul := by
        intro he
        rw [he, nul_not_hexdigit] at hf2
        exact Bool.false_ne_true hf2
      have hs2 : is_ascii_hexdigit (read_char (read_char l)).next = true :=
        not_not.mp hs
      have hsn : (read_char (read_char l)).next ≠ nul := by
        intro he
        rw [he, nul_not_hexdigit] at hs2
        exact Bool.false_ne_true hs2
      rw [read_hex_loop]
      simp only [dif_neg hf, dif_neg hs]
      exact Consumes_comp (Consumes_comp (Consumes_read_char input p l h hn)
        (fun p2 h2 => Consumes_read_char input p2 _ h2 hfn))
        (fun p2 h2 => ih input p2 h2 hsn)

theorem Consumes_of_lrem_eq {input p : List Char} {s s2 t : Lexer}
    (heq : lrem s = lrem s2) (h : Consumes input p s2 t) :
    Consumes input p s t := by
  obtain ⟨q, hr, hI⟩ := h
  exact ⟨q, heq.trans hr, hI⟩

theorem Inv_ascii_escape (input p : List Char) (l : Lexer)
    (h : Inv input p l) : Inv input p (ascii_escape l).2 := by
  unfold ascii_escape
  split; · exact h
  split; · exact h
  split; · exact h
  split; · exact h
  split; · exact h
  split; · exact h
  exact h

theorem ascii_escape_input (l : Lexer) : (ascii_escape l).2.input = l.input := by
  unfold ascii_escape
  split; · rfl
  split; · rfl
  split; · rfl
  split; · rfl
  split; · rfl
  split; · rfl
  rfl

theorem ascii_escape_pos (l : Lexer) :
    ((ascii_escape l).2.line, (ascii_escape l).2.column) = (l.line, l.column) := by
  unfold ascii_escape
  split; · rfl
  split; · rfl
  split; · rfl
  split; · rfl
  split; · rfl
  split; · rfl
  rfl

theorem ascii_escape_lrem (l : Lexer) : lrem (ascii_escape l).2 = lrem l := by
  unfold lrem
  rw [ascii_escape_next, ascii_escape_input]

theorem Inv_ascii_plain (input p : List Char) (l : Lexer)
    (h : Inv input p l) : Inv input p (ascii_plain l) := by
  unfold ascii_plain
  split
  · exact h
  · exact h

theorem ascii_plain_input (l : Lexer) : (ascii_plain l).input = l.input := by
  unfold ascii_plain
  split
  · rfl
  · rfl

theorem ascii_plain_lrem (l : Lexer) : lrem (ascii_plain l) = lrem l := by
  unfold lrem
  rw [ascii_plain_next, ascii_plain_input]

theorem Inv_utf8_escape (input p : List Char) (l : Lexer)
    (h : Inv input p l) : Inv input p (utf8_escape l).2 := by
  unfold utf8_escape
  split; · exact h
  split; · exact h
  split; · exact h
  split; · exact h
  split; · exact h
  split; · exact h
  split; · exact h
  exact h

theorem utf8_escape_input (l : Lexer) : (utf8_escape l).2.input = l.input := by
  unfold utf8_escape
  split; · rfl
  split; · rfl
  split; · rfl
  split; · rfl
  split; · rfl
  split; · rfl
  split; · rfl
  rfl

theorem utf8_escape_pos (l : Lexer) :
    ((utf8_escape l).2.line, (utf8_escape l).2.column) = (l.line, l.column) := by
  unfold utf8_escape
  split; · rfl
  split; · rfl
  split; · rfl
  split; · rfl
  split; · rfl
  split; · rfl
  split; · rfl
  rfl

theorem utf8_escape_lrem (l : Lexer) : lrem (utf8_escape l).2 = lrem l := by
  unfold lrem
  rw [utf8_escape_next, utf8_escape_input]

theorem Consumes_read_ascii_loop (a b : Nat) (l : Lexer) (e : Bool)
    (acc : List Char) :
    ∀ (input p : List Char), Inv input p l →
      (lrem l = [] → e = true → (l.line, l.column) = posA p) →
      Consumes input p l (read_ascii_loop a b l e acc).2 := by
  induction l, e, acc using read_ascii_loop.induct a b with
  | case1 l acc p2 ih =>
      intro input p h hP
      rw [read_ascii_loop, if_pos (rfl : (true : Bool) = true)]
      by_cases hn : l.next = nul
      · have hrem0 : lrem l = [] := lrem_of_nul l hn
        have hpos : (l.line, l.column) = posA p := hP hrem0 rfl
        have hIe : Inv input p (ascii_escape l).2 := Inv_ascii_escape input p l h
        have hne : (ascii_escape l).2.next = nul := by
          rw [ascii_escape_next]; exact hn
        have hpe : ((ascii_escape l).2.line, (ascii_escape l).2.column) =
            posA p := by rw [ascii_escape_pos]; exact hpos
        obtain ⟨hIo, hno, hio⟩ :=
          Inv_read_char_over input p (ascii_escape l).2 hIe hne hpe
        have hC := ih input p hIo (by simp)
        refine Consumes_of_lrem_eq ?_ hC
        rw [hrem0, lrem_of_nul _ hno]
      · have hIe : Inv input p (ascii_escape l).2 := Inv_ascii_escape input p l h
        have hne : (ascii_escape l).2.next ≠ nul := by
          rw [ascii_escape_next]; exact hn
        refine Consumes_of_lrem_eq (ascii_escape_lrem l).symm ?_
        exact Consumes_comp (Consumes_read_char input p _ hIe hne)
          (fun p3 h3 => ih input p3 h3 (by simp))
  | case2 l e acc he h2 =>
      intro input p h hP
      rw [read_ascii_loop]
      simp only [if_neg he, if_pos h2]
      exact Consumes_read_char input p l h (by rw [h2]; decide)
  | case3 l e acc he h2 h3 ih =>
      intro input p h hP
      rw [read_ascii_loop]
      simp only [if_neg he, if_neg h2, dif_pos h3]
      obtain ⟨hI1, hr1, hp1⟩ :=
        Inv_read_char input p l h (by rw [h3]; decide)
      obtain ⟨q2, hr2, hI2⟩ := ih input (p ++ [l.next]) hI1 (fun _ _ => hp1)
      refine ⟨l.next :: q2, by rw [hr1, hr2]; rfl, ?_⟩
      rwa [show p ++ l.next :: q2 = (p ++ [l.next]) ++ q2 from by simp]
  | case4 l e acc he h2 h3 h4 =>
      intro input p h hP
      rw [read_ascii_loop]
      simp only [if_neg he, if_neg h2, dif_neg h3, if_pos h4]
      exact Consumes_errors _ (Consumes_refl input p l h)
  | case5 l e acc he h2 h3 h4 ih =>
      intro input p h hP
      rw [read_ascii_loop]
      simp only [if_neg he, if_neg h2, dif_neg h3, if_neg h4]
      refine Consumes_of_lrem_eq (ascii_plain_lrem l).symm ?_
      have hIp : Inv input p (ascii_plain l) := Inv_ascii_plain input p l h
      have hnp : (ascii_plain l).next ≠ nul := by
        rw [ascii_plain_next]; exact h4
      exact Consumes_comp (Consumes_read_char input p _ hIp hnp)
        (fun p3 h3b => ih input p3 h3b (by simp))

theorem Consumes_read_utf8_loop (a b : Nat) (l : Lexer) (e : Bool)
    (acc : List Char) :
    ∀ (input p : List Char), Inv input p l →
      (lrem l = [] → e = true → (l.line, l.column) = posA p) →
      Consumes input p l (read_utf8_loop a b l e acc).2 := by
  induction l, e, acc using read_utf8_loop.induct a b with
  | case1 l acc p2 ih =>
      intro input p h hP
      rw [read_utf8_loop, if_pos (rfl : (true : Bool) = true)]
      by_cases hn : l.next = nul
      · have hrem0 : lrem l = [] := lrem_of_nul l hn
        have hpos : (l.line, l.column) = posA p := hP hrem0 rfl
        have hIe : Inv input p (utf8_escape l).2 := Inv_utf8_escape input p l h
        have hne : (utf8_escape l).2.next = nul := by
          rw [utf8_escape_next]; exact hn
        have hpe : ((utf8_escape l).2.line, (utf8_escape l).2.column) =
            posA p := by rw [utf8_escape_pos]; exact hpos
        obtain ⟨hIo, hno, hio⟩ :=
          Inv_read_char_over input p (utf8_escape l).2 hIe hne hpe
        have hC := ih input p hIo (by simp)
        refine Consumes_of_lrem_eq ?_ hC
        rw [hrem0, lrem_of_nul _ hno]
      · have hIe : Inv input p (utf8_escape l).2 := Inv_utf8_escape input p l h
        have hne : (utf8_escape l).2.next ≠ nul := by
          rw [utf8_escape_next]; exact hn
        refine Consumes_of_lrem_eq (utf8_escape_lrem l).symm ?_
        exact Consumes_comp (Consumes_read_char input p _ hIe hne)
          (fun p3 h3 => ih input p3 h3 (by simp))
  | case2 l e acc he h2 =>
      intro input p h hP
      rw [read_utf8_loop]
      simp only [if_neg he, if_pos h2]
      exact Consumes_read_char input p l h (by rw [h2]; decide)
  | case3 l e acc he h2 h3 ih =>
      intro input p h hP
      rw [read_utf8_loop]
      simp only [if_neg he, if_neg h2, dif_pos h3]
      obtain ⟨hI1, hr1, hp1⟩ :=
        Inv_read_char input p l h (by rw [h3]; decide)
      obtain ⟨q2, hr2, hI2⟩ := ih input (p ++ [l.next]) hI1 (fun _ _ => hp1)
      refine ⟨l.next :: q2, by rw [hr1, hr2]; rfl, ?_⟩
      rwa [show p ++ l.next :: q2 = (p ++ [l.next]) ++ q2 from by simp]
  | case4 l e acc he h2 h3 h4 =>
      intro input p h hP
      rw [read_utf8_loop]
      simp only [if_neg he, if_neg h2, dif_neg h3, if_pos h4]
      exact Consumes_errors _ (Consumes_refl input p l h)
  | case5 l e acc he h2 h3 h4 ih =>
      intro input p h hP
      rw [read_utf8_loop]
      simp only [if_neg he, if_neg h2, dif_neg h3, if_neg h4]
      exact Consumes_comp (Consumes_read_char input p l h h4)
        (fun p3 h3b => ih input p3 h3b (by simp))

theorem Consumes_read_ascii_string (l : Lexer) (input p : List Char)
    (h : Inv input p l) (hn : l.next ≠ nul) :
    Consumes input p l (read_ascii_string l).2 := by
  unfold read_ascii_string
  exact Consumes_comp (Consumes_read_char input p l h hn)
    (fun p2 h2 => Consumes_read_ascii_loop _ _ _ _ _ input p2 h2 (by simp))

theorem Consumes_read_utf8_string (l : Lexer) (input p : List Char)
    (h : Inv input p l) (hn : l.next ≠ nul) :
    Consumes input p l (read_utf8_string l).2 := by
  unfold read_utf8_string
  exact Consumes_comp (Consumes_read_char input p l h hn)
    (fun p2 h2 => Consumes_read_utf8_loop _ _ _ _ _ input p2 h2 (by simp))

theorem Consumes_read_token (s : Lexer) (input p : List Char)
    (h : Inv input p s) (hn : s.next ≠ nul) :
    Consumes input p s (read_token s).2 := by
  by_cases h2 : s.next = '('
  · have ht : (read_token s).2 = read_char s := by simp [read_token, h2, nul]
    rw [ht]; exact Consumes_read_char input p s h hn
  by_cases h3 : s.next = ')'
  · have ht : (read_token s).2 = read_char s := by simp [read_token, h3, nul]
    rw [ht]; exact Consumes_read_char input p s h hn
  by_cases h4 : s.next = '{'
  · have ht : (read_token s).2 = read_char s := by simp [read_token, h4, nul]
    rw [ht]; exact Consumes_read_char input p s h hn
  by_cases h5 : s.next = '}'
  · have ht : (read_token s).2 = read_char s := by simp [read_token, h5, nul]
    rw [ht]; exact Consumes_read_char input p s h hn
  by_cases h6 : s.next = ':'
  · have ht : (read_token s).2 = read_char s := by simp [read_token, h6, nul]
    rw [ht]; exact Consumes_read_char input p s h hn
  by_cases h7 : s.next = '.'
  · have ht : (read_token s).2 = read_char s := by simp [read_token, h7, nul]
    rw [ht]; exact Consumes_read_char input p s h hn
  by_cases h8 : s.next = ','
  · have ht : (read_token s).2 = read_char s := by simp [read_token, h8, nul]
    rw [ht]; exact Consumes_read_char input p s h hn
  by_cases h9 : s.next = '+'
  · have ht : (read_token s).2 = read_char s := by simp [read_token, h9, nul]
    rw [ht]; exact Consumes_read_char input p s h hn
  by_cases h10 : s.next = '-'
  · have ht : (read_token s).2 = read_char s := by simp [read_token, h10, nul]
    rw [ht]; exact Consumes_read_char input p s h hn
  by_cases h11 : s.next = '*'
  · have ht : (read_token s).2 = read_char s := by simp [read_token, h11, nul]
    rw [ht]; exact Consumes_read_char input p s h hn
  by_cases h12 : s.next = '/'
  · have ht : (read_token s).2 = read_char s := by simp [read_token, h12, nul]
    rw [ht]; exact Consumes_read_char input p s h hn
  by_cases h13 : s.next = '<'
  · by_cases he : (read_char s).next = '='
    · have ht : (read_token s).2 = read_char (read_char s) := by
        simp [read_token, h13, he, nul]
      rw [ht]
      exact Consumes_comp (Consumes_read_char input p s h hn)
        (fun p2 h2b => Consumes_read_char input p2 _ h2b (by rw [he]; decide))
    · have ht : (read_token s).2 = read_char s := by
        simp [read_token, h13, he, nul]
      rw [ht]; exact Consumes_read_char input p s h hn
  by_cases h14 : s.next = '>'
  · by_cases he : (read_char s).next = '='
    · have ht : (read_token s).2 = read_char (read_char s) := by
        simp [read_token, h14, he, nul]
      rw [ht]
      exact Consumes_comp (Consumes_read_char input p s h hn)
        (fun p2 h2b => Consumes_read_char input p2 _ h2b (by rw [he]; decide))
    · have ht : (read_token s).2 = read_char s := by
        simp [read_token, h14, he, nul]
      rw [ht]; exact Consumes_read_char input p s h hn
  by_cases h15 : s.next = ';'
  · by_cases hsemi : (read_char s).next = ';'
    · have ht : (read_token s).2 =
          (read_line (skip_whitespace (read_char (read_char s)))).2 := by
        simp [read_token, h15, hsemi, nul]
      rw [ht]
      refine Consumes_comp (Consumes_read_char input p s h hn) (fun p2 h2b =>
        Consumes_comp (Consumes_read_char input p2 _ h2b (by rw [hsemi]; decide))
          (fun p3 h3b => Consumes_comp (Consumes_skip_whitespace _ input p3 h3b)
            (fun p4 h4b => Consumes_read_line _ input p4 h4b)))
    · have ht : (read_token s).2 =
          (read_line (skip_whitespace
            { read_char s with errors := (read_char s).errors ++
              [{ span := { start_line := (read_char s).last_line,
                           start_column := (read_char s).last_column,
                           end_line := (read_char s).last_line,
                           end_column := (read_char s).last_column },
                 token := Token.Error LexerError.SingleSemiColon }] })).2 := by
        simp [read_token, h15, hsemi, nul]
      rw [ht]
      refine Consumes_comp (Consumes_read_char input p s h hn) (fun p2 h2b => ?_)
      exact Consumes_comp
        (Consumes_skip_whitespace
          { read_char s with errors := (read_char s).errors ++
            [{ span := { start_line := (read_char s).last_line,
                         start_column := (read_char s).last_column,
                         end_line := (read_char s).last_line,
                         end_column := (read_char s).last_column },
               token := Token.Error LexerError.SingleSemiColon }] } input p2 h2b)
        (fun p4 h4b => Consumes_read_line _ input p4 h4b)
  by_cases h16 : s.next = 'u'
  · by_cases hd : is_ascii_digit (read_char s).next
    · have ht : (read_token s).2 = (read_unsigned (read_char s)).2 := by
        simp [read_token, h16, hd, nul]
      rw [ht]
      exact Consumes_comp (Consumes_read_char input p s h hn)
        (fun p2 h2b => Consumes_read_unsigned _ input p2 h2b)
    · by_cases hq : (read_char s).next = '"'
      · have ht : (read_token s).2 = (read_utf8_string (read_char s)).2 := by
          simp [read_token, h16, hd, hq, nul, is_ascii_digit]
        rw [ht]
        exact Consumes_comp (Consumes_read_char input p s h hn)
          (fun p2 h2b => Consumes_read_utf8_string _ input p2 h2b
            (by rw [hq]; decide))
      · have ht : (read_token s).2 = (read_identifier (read_char s) (some 'u')).2 := by
          simp [read_token, h16, hd, hq, nul]
        rw [ht]
        exact Consumes_comp (Consumes_read_char input p s h hn)
          (fun p2 h2b => Consumes_read_ident_loop _ input p2 h2b)
  by_cases h17 : s.next = ' ' ∨ s.next = '\t' ∨ s.next = '\r' ∨ s.next = '\n'
  · have hn1 : s.next ≠ nul := hn
    have ht : (read_token s).2 = skip_whitespace s := by
      simp [read_token, hn1, h2, h3, h4, h5, h6, h7, h8, h9, h10, h11, h12,
        h13, h14, h15, h16, h17]
    rw [ht]
    exact Consumes_skip_whitespace s input p h
  by_cases h18 : s.next = '"'
  · have ht : (read_token s).2 = (read_ascii_string s).2 := by
      simp [read_token, h18, nul]
    rw [ht]
    exact Consumes_read_ascii_string s input p h hn
  by_cases h19 : s.next = '0'
  · by_cases hx : (read_char s).next = 'x'
    · have ht : (read_token s).2 = (read_hex (read_char s)).2 := by
        simp [read_token, h19, hx, nul, is_ascii_digit]
      rw [ht]
      exact Consumes_comp (Consumes_read_char input p s h hn)
        (fun p2 h2b => Consumes_read_hex_loop _ _ _ _ input p2 h2b
          (by rw [hx]; decide))
    · by_cases hd : is_ascii_digit (read_char s).next
      · have ht : (read_token s).2 = (read_integer (read_char s)).2 := by
          simp [read_token, h19, hx, hd, nul]
        rw [ht]
        exact Consumes_comp (Consumes_read_char input p s h hn)
          (fun p2 h2b => Consumes_read_integer _ input p2 h2b)
      · by_cases hsep : is_separator (read_char s).next
        · have ht : (read_token s).2 = read_char s := by
            simp [read_token, h19, hx, hd, hsep, nul]
          rw [ht]; exact Consumes_read_char input p s h hn
        · have ht : (read_token s).2 = proceed_through_error (read_char s)
              (LexerError.InvalidCharInt (read_char s).next) := by
            simp [read_token, h19, hx, hd, hsep, nul]
          rw [ht]
          exact Consumes_comp (Consumes_read_char input p s h hn)
            (fun p2 h2b => Consumes_proceed_through_error _ _ input p2 h2b)
  by_cases h20 : is_ascii_alphabetic s.next
  · have hn1 : s.next ≠ nul := hn
    have ht : (read_token s).2 = (read_identifier s none).2 := by
      simp [read_token, hn1, h2, h3, h4, h5, h6, h7, h8, h9, h10, h11, h12,
        h13, h14, h15, h16, h17, h18, h19, h20]
    rw [ht]
    exact Consumes_read_ident_loop s input p h
  by_cases h21 : is_ascii_digit s.next
  · have hn1 : s.next ≠ nul := hn
    have ht : (read_token s).2 = (read_integer s).2 := by
      simp [read_token, hn1, h2, h3, h4, h5, h6, h7, h8, h9, h10, h11, h12,
        h13, h14, h15, h16, h17, h18, h19, h20, h21]
    rw [ht]
    exact Consumes_read_integer s input p h
  · have hn1 : s.next ≠ nul := hn
    have ht : (read_token s).2 = { s with errors := s.errors ++
        [{ span := { start_line := s.line, start_column := s.column,
                     end_line := s.line, end_column := s.column },
           token := Token.Error (LexerError.UnknownSymbol s.next) }] } := by
      simp [read_token, hn1, h2, h3, h4, h5, h6, h7, h8, h9, h10, h11, h12,
        h13, h14, h15, h16, h17, h18, h19, h20, h21]
    rw [ht]
    exact Consumes_errors _ (Consumes_refl input p s h)

/-! ### C2: from `Consumes` to exact span coverage -/

/-- The span `read_token` emits: it starts at the pre-call line/column and
ends at the post-call `last_line`/`last_column`. -/
theorem read_token_span (l : Lexer) :
    (read_token l).1.span =
      { start_line := l.line, start_column := l.column,
        end_line := (read_token l).2.last_line,
        end_column := (read_token l).2.last_column } := rfl

theorem posA_append (a b : List Char) :
    posA (a ++ b) = posFrom (posA a) b :=
  posFrom_append (1, 1) a b

theorem dropLast_append_left (p q : List Char) (hq : q ≠ []) :
    (p ++ q).dropLast = p ++ q.dropLast := by
  induction p with
  | nil => rfl
  | cons c cs ih =>
      have h1 : ((c :: cs) ++ q).dropLast = c :: (cs ++ q).dropLast := by
        rw [List.cons_append]
        cases hcq : cs ++ q with
        | nil => exact absurd (List.append_eq_nil.mp hcq).2 hq
        | cons d ds => rfl
      rw [h1, ih, List.cons_append]

theorem lastP_append_ne (p q : List Char) (hq : q ≠ []) :
    lastP (p ++ q) = posFrom (posA p) q.dropLast := by
  have hne : (p ++ q) ≠ [] := fun h2 => hq (List.append_eq_nil.mp h2).2
  have hne2 : (p ++ q).isEmpty = false := by
    cases hpq : p ++ q with
    | nil => exact absurd hpq hne
    | cons a l => rfl
  unfold lastP
  rw [hne2]
  simp only [Bool.false_eq_true, if_false]
  rw [dropLast_append_left p q hq]
  exact posA_append p q.dropLast

/-- One `read_token` call on a live lookahead consumes some chunk `q` of the
remaining stream, re-establishes the invariant, and emits a span that covers
exactly `q` inside the full input. -/
theorem read_token_step (input p : List Char) (s : Lexer)
    (h : Inv input p s) (hn : s.next ≠ nul) :
    ∃ q, lrem s = q ++ lrem (read_token s).2 ∧
      Inv input (p ++ q) (read_token s).2 ∧
      spanSub input (read_token s).1.span = q := by
  obtain ⟨q, hr, hI⟩ := Consumes_read_token s input p h hn
  refine ⟨q, hr, hI, ?_⟩
  have hinp : input = p ++ (q ++ lrem (read_token s).2) := by
    rw [h.2.1, hr]
  have hstart0 : (s.line, s.column) = posA p := by
    rcases h.2.2.2.1 with hpos | ⟨hl0, _⟩
    · exact hpos
    · rw [lrem_of_ne s hn] at hl0
      exact absurd hl0 (by simp)
  have hE2 := hI.2.2.2.2
  rw [read_token_span s, hinp]
  refine spanSub_exact p q (lrem (read_token s).2) _ hstart0 ?_ ?_
  · intro x hx
    show posLe x.1 ((read_token s).2.last_line, (read_token s).2.last_column)
    rcases hE2 with hlast | ⟨hl0, hlast⟩
    · rw [hlast]
      by_cases hq0 : q = []
      · subst hq0
        simp [pList] at hx
      · rw [lastP_append_ne p q hq0]
        exact mem_pList_le_last (posA p) q hq0 x hx
    · rw [hlast, posA_append]
      exact posLt_le _ _ (mem_pList_lt (posA p) q x hx)
  · rcases hE2 with hlast | ⟨hl0, _⟩
    · left
      show posLt ((read_token s).2.last_line, (read_token s).2.last_column)
        (posFrom (posA p) q)
      rw [hlast, ← posA_append]
      exact lastP_lt_posA (p ++ q)
    · right
      exact hl0

/-- A live lookahead never yields `Eof`. -/
theorem read_token_ne_eof (l : Lexer) (hn : l.next ≠ nul) :
    (read_token l).1.token ≠ Token.Eof :=
  fun h2 => hn (read_token_eof_nul l h2)

/-- A NUL lookahead always yields `Eof`. -/
theorem read_token_eof_of_nul (l : Lexer) (hn : l.next = nul) :
    (read_token l).1.token = Token.Eof := by
  simp [read_token, hn]

/-- Concatenation of the input substrings covered by the spans of the first
`N` tokens produced on `input`. -/
def coverage (input : List Char) : Nat → List Char
  | 0 => []
  | n + 1 => coverage input n ++ spanSub input (lexTok input n).span

/-- As long as no call has hit the NUL sentinel, the scanner state after `N`
calls satisfies the invariant with consumed prefix `coverage input N`. -/
theorem stream_inv (input : List Char) (hnf : nul ∉ input) :
    ∀ N : Nat, (∀ k, k < N → (lexState input k).next ≠ nul) →
      Inv input (coverage input N) (lexState input N) := by
  intro N
  induction N with
  | zero =>
      intro _
      exact Inv_new input hnf
  | succ n ih =>
      intro hfn
      have hI := ih (fun k hk => hfn k (Nat.lt_succ_of_lt hk))
      have hn := hfn n (Nat.lt_succ_self n)
      obtain ⟨q, hr, hI2, hspan⟩ :=
        read_token_step input (coverage input n) (lexState input n) hI hn
      have hc : coverage input (n + 1) = coverage input n ++ q := by
        show coverage input n ++ spanSub input (lexTok input n).span =
          coverage input n ++ q
        rw [show (lexTok input n).span = (read_token (lexState input n)).1.span
          from rfl, hspan]
      rw [hc]
      exact hI2

/-- C2 (amended): for every NUL-free input, if the token stream reaches its
first `Eof` at call `N`, then concatenating the input substrings covered by
the spans of the first `N` tokens reconstructs the input exactly — spans are
read against the 1-based position map in which the line increments (and the
column resets to 1) exactly on consuming a newline. -/
theorem c2_span_coverage (input : List Char) (hnf : nul ∉ input) (N : Nat)
    (hEof : (lexTok input N).token = Token.Eof)
    (hfirst : ∀ k, k < N → (lexTok input k).token ≠ Token.Eof) :
    coverage input N = input := by
  have hfn : ∀ k, k < N → (lexState input k).next ≠ nul := by
    intro k hk hnul
    exact hfirst k hk (read_token_eof_of_nul (lexState input k) hnul)
  have hI := stream_inv input hnf N hfn
  have hnul : (lexState input N).next = nul :=
    read_token_eof_nul (lexState input N) hEof
  have hB : input = coverage input N ++ lrem (lexState input N) := hI.2.1
  rw [lrem_of_nul _ hnul, List.append_nil] at hB
  exact hB.symm

/-- C2 counterexample to the claim as stated, which quantifies over every
input text: on the input `"a\0b"` (interior NUL) the first `Eof` arrives at
call 1, yet the spans of the tokens before it cover only `"a"` — the NUL
sentinel makes the scanner report end of input while `"b"` remains. -/
theorem c2_span_coverage_false :
    ∃ (input : List Char) (N : Nat),
      (lexTok input N).token = Token.Eof ∧
      (∀ k, k < N → (lexTok input k).token ≠ Token.Eof) ∧
      coverage input N ≠ input := by
  refine ⟨['a', nul, 'b'], 1, ?_, ?_, ?_⟩
  · simp [lexTok, lexState, Lexer.new, read_token, read_char, read_identifier,
      read_ident_loop, is_ident_char, is_separator, is_ascii_whitespace,
      is_ascii_alphabetic, is_ascii_digit, nul]
  · intro k hk
    have hk0 : k = 0 := by omega
    subst hk0
    have h0 : (lexTok ['a', nul, 'b'] 0).token = Token.Ident ['a'] := by
      simp [lexTok, lexState, Lexer.new, read_token, read_char, read_identifier,
        read_ident_loop, is_ident_char, is_separator, is_ascii_whitespace,
        is_ascii_alphabetic, is_ascii_digit, nul]
    rw [h0]
    simp
  · have hsp : (lexTok ['a', nul, 'b'] 0).span =
        { start_line := 1, start_column := 1, end_line := 1, end_column := 1 } := by
      simp [lexTok, lexState, Lexer.new, read_token, read_char, read_identifier,
        read_ident_loop, is_ident_char, is_separator, is_ascii_whitespace,
        is_ascii_alphabetic, is_ascii_digit, nul]
    have hc : coverage ['a', nul, 'b'] 1 =
        spanSub ['a', nul, 'b'] (lexTok ['a', nul, 'b'] 0).span := by
      show coverage ['a', nul, 'b'] 0 ++
        spanSub ['a', nul, 'b'] (lexTok ['a', nul, 'b'] 0).span = _
      rw [show coverage ['a', nul, 'b'] 0 = [] from rfl, List.nil_append]
    rw [hc, hsp]
    decide

/-- Witness for C2 (amended) on the single-character input `"("`: the first
`Eof` arrives at call 1 and the lone `Lparen` span covers the whole input. -/
theorem c2_span_coverage_witness :
    nul ∉ ['('] ∧
    (lexTok ['('] 1).token = Token.Eof ∧
    (lexTok ['('] 0).token ≠ Token.Eof ∧
    coverage ['('] 1 = ['('] := by
  have hnf : nul ∉ ['('] := by decide
  have h0 : (lexTok ['('] 0).token = Token.Lparen := by
    simp [lexTok, lexState, Lexer.new, read_token, read_char, nul]
  have h1 : (lexTok ['('] 1).token = Token.Eof := by
    simp [lexTok, lexState, Lexer.new, read_token, read_char, nul]
  have hfirst : ∀ k, k < 1 → (lexTok ['('] k).token ≠ Token.Eof := by
    intro k hk
    have hk0 : k = 0 := by omega
    subst hk0
    rw [h0]
    simp
  exact ⟨hnf, h1, hfirst 0 (by omega),
    c2_span_coverage ['('] hnf 1 h1 hfirst⟩

end Parser2
